import Mathlib

/-!
Verification of the node-graph editor (src/script.js, second file variant,
lines 1290-2782, which is the variant all claims cite).

The JavaScript is shallowly embedded: the mutable `this.state` object becomes
the `EditorState` structure, JavaScript objects used as string-keyed maps
become insertion-ordered association lists (`JMap`), numbers that the modelled
operations only ever hold as integers become `Int`/`Nat` (zoom is kept as
`Rat`), and a possibly-NaN JavaScript number is `Option Int` with `none`
playing NaN.  DOM rendering, mouse interaction and file-picker plumbing are
outside the model, as the specification itself excludes them.
-/

-- ===== JavaScript-flavoured basics =====

/-- Insertion-ordered map, the model of a JavaScript object used as a
dictionary (and of a `Map`): a list of key-value pairs with unique keys
maintained by `JMap.set`. -/
abbrev JMap (κ α : Type) : Type := List (κ × α)

def JMap.get? {κ α : Type} [BEq κ] : JMap κ α → κ → Option α
  | [], _ => none
  | p :: t, k => if p.1 == k then some p.2 else JMap.get? t k

/-- Assignment `m[k] = v`: overwrite in place when the key exists (keeping its
position, as JavaScript objects do), otherwise append. -/
def JMap.set {κ α : Type} [BEq κ] (m : JMap κ α) (k : κ) (v : α) : JMap κ α :=
  if m.any (fun p => p.1 == k) then m.map (fun p => if p.1 == k then (k, v) else p)
  else m ++ [(k, v)]

/-- The `delete m[k]` statement. -/
def JMap.del {κ α : Type} [BEq κ] (m : JMap κ α) (k : κ) : JMap κ α :=
  m.filter (fun p => p.1 != k)

/-- `Object.values(m)`, in insertion order. -/
def JMap.values {κ α : Type} (m : JMap κ α) : List α := m.map (fun p => p.2)

def JMap.keys {κ α : Type} (m : JMap κ α) : List κ := m.map (fun p => p.1)

/-- Mutation of the object stored at an existing key; a no-op when the key is
absent (matching mutation through a stale object reference in JavaScript). -/
def JMap.modifyVal {κ α : Type} [BEq κ] (m : JMap κ α) (k : κ) (f : α → α) : JMap κ α :=
  m.map (fun p => if p.1 == k then (k, f p.2) else p)

def JMap.hasKey {κ α : Type} [BEq κ] (m : JMap κ α) (k : κ) : Bool :=
  m.any (fun p => p.1 == k)

/-- Truthiness of a nullable JavaScript string (`null` and the empty string
are falsy). -/
def jsTruthyStr : Option String → Bool
  | none => false
  | some s => s ≠ ""

/-- The characters JavaScript treats as whitespace in the contexts the code
exercises (ASCII subset). -/
def isJsSpace (c : Char) : Bool :=
  c = ' ' || c = '\t' || c = '\n' || c = '\r'

def isDigitChar (c : Char) : Bool :=
  '0' ≤ c && c ≤ '9'

def digitVal (c : Char) : Nat := c.toNat - 48

def parseDigitsAux : List Char → Nat → Nat
  | [], acc => acc
  | c :: cs, acc => if isDigitChar c then parseDigitsAux cs (acc * 10 + digitVal c) else acc

/-- Longest digit prefix of a character list, `none` when there is none. -/
def parsePrefixDigits : List Char → Option Nat
  | [] => none
  | c :: cs => if isDigitChar c then some (parseDigitsAux (c :: cs) 0) else none

/-- `parseInt(s, 10)`: skip whitespace, optional sign, then a digit prefix;
`none` models NaN. -/
def jsParseInt (s : String) : Option Int :=
  match s.toList.dropWhile isJsSpace with
  | [] => none
  | c :: rest =>
    if c = '-' then (parsePrefixDigits rest).map (fun n => -(n : Int))
    else if c = '+' then (parsePrefixDigits rest).map (fun n => (n : Int))
    else (parsePrefixDigits (c :: rest)).map (fun n => (n : Int))

/-- Splitting a character list at every occurrence of a separator, the model
of `String.prototype.split` with a one-character separator. -/
def splitOnChar (sep : Char) : List Char → List (List Char)
  | [] => [[]]
  | c :: cs =>
    if c = sep then [] :: splitOnChar sep cs
    else
      match splitOnChar sep cs with
      | [] => [[c]]
      | g :: gs => (c :: g) :: gs

def jsSplit (sep : Char) (s : String) : List String :=
  (splitOnChar sep s.toList).map (fun l => String.mk l)

def digitChar (d : Nat) : Char :=
  match d with
  | 0 => '0' | 1 => '1' | 2 => '2' | 3 => '3' | 4 => '4'
  | 5 => '5' | 6 => '6' | 7 => '7' | 8 => '8' | 9 => '9'
  | _ => 'x'

/-- Little-endian decimal digits computed with explicit fuel so that the
definition is structural (the fuel `n` always suffices for the number `n`). -/
def digitsLEAux : Nat → Nat → List Nat
  | _, 0 => []
  | 0, _ => []
  | fuel + 1, n + 1 => ((n + 1) % 10) :: digitsLEAux fuel ((n + 1) / 10)

def natDigitsLE (n : Nat) : List Nat := digitsLEAux n n

/-- Decimal rendering of a `Nat`, the model of JavaScript template
interpolation of a nonnegative integer. -/
def natToStr (n : Nat) : String :=
  if n = 0 then "0" else String.mk ((natDigitsLE n).reverse.map digitChar)

/-- Value of a little-endian digit list, used to reason about
`digitsLEAux`. -/
def ofDigitsLE : List Nat → Nat
  | [] => 0
  | d :: ds => d + 10 * ofDigitsLE ds

/-- Decimal rendering of an `Int`. -/
def intToStr (i : Int) : String :=
  if i < 0 then "-" ++ natToStr i.natAbs else natToStr i.toNat

/-- Rendering of a possibly-NaN number inside a template literal. -/
def jsNumToStr : Option Int → String
  | none => "NaN"
  | some i => intToStr i

/-- Strict equality `===` between two JavaScript numbers: NaN compares
unequal to everything, including itself. -/
def jsEqNum : Option Int → Option Int → Bool
  | some a, some b => a == b
  | _, _ => false

/-- `Array.prototype.findIndex`: index of the first element satisfying the
predicate, `-1` when there is none. -/
def jsFindIndex {α : Type} (p : α → Bool) (l : List α) : Int :=
  match l.findIdx? p with
  | some i => (i : Int)
  | none => -1

/-- JavaScript `l.slice(0, e)` for a possibly negative end index. -/
def jsSliceTo {α : Type} (l : List α) (e : Int) : List α :=
  if e < 0 then l.take (((l.length : Int) + e).toNat) else l.take e.toNat

/-- Replacement of the first list element satisfying a predicate, the model of
mutating the object returned by `Array.prototype.find`. -/
def replaceFirst {α : Type} (p : α → Bool) (f : α → α) : List α → List α
  | [] => []
  | a :: as => if p a then f a :: as else a :: replaceFirst p f as

/-- `s.startsWith(pre)`, written over character lists. -/
def jsStartsWith (s pre : String) : Bool :=
  pre.toList.isPrefixOf s.toList

/-- `s.trim()`, over character lists. -/
def jsTrim (s : String) : String :=
  String.mk (((s.toList.dropWhile isJsSpace).reverse.dropWhile isJsSpace).reverse)

/-- `s.toLowerCase()` for the ASCII range the editor handles. -/
def jsToLowerStr (s : String) : String :=
  String.mk (s.toList.map Char.toLower)

/-- `s.includes(c)` for a one-character needle. -/
def jsContainsChar (s : String) (c : Char) : Bool :=
  s.toList.contains c

/-- `parts.join('.')`. -/
def joinWithDot : List String → String
  | [] => ""
  | [x] => x
  | x :: xs => x ++ "." ++ joinWithDot xs

-- ===== Data model (script.js, state shapes) =====

/-- A pin: `{ name, color }` (colors are stored as hex strings on pins). -/
structure Pin where
  name : String
  color : String
deriving DecidableEq, Repr

/-- One endpoint of a connection: `{ nodeId, index }`.  The index is
`Option Int` because a hand-edited readable file can produce a NaN index
(see `convConns`). -/
structure ConnEnd where
  nodeId : String
  index : Option Int
deriving DecidableEq, Repr

/-- A connection `{ id, start, end }`; the source field `end` is a Lean
keyword and is rendered `endP`. -/
structure Connection where
  id : String
  start : ConnEnd
  endP : ConnEnd
deriving DecidableEq, Repr

/-- A node record.  `type` is one of the strings "default", "graph-input",
"graph-output" in every state the editor itself creates; it is kept as a
string because the code compares it with `===` and a loaded file could hold
anything.  `subgraphId` is nullable. -/
structure Node where
  id : String
  x : Int
  y : Int
  width : Int
  height : Int
  color : String
  type : String
  text : String
  title : String
  inputs : List Pin
  outputs : List Pin
  subgraphId : Option String
deriving DecidableEq, Repr

structure PanXY where
  x : Rat
  y : Rat
deriving DecidableEq, Repr

/-- A graph record `{ id, name, nodes, connections, pan, zoom }`. -/
structure Graph where
  id : String
  name : String
  nodes : List Node
  connections : List Connection
  pan : PanXY
  zoom : Rat
deriving DecidableEq, Repr

/-- The consolidated `this.state` object (the DOM-only field
`contextMenuPos` is omitted; `selectedNodeIds` is the insertion-ordered
`Set`). -/
structure EditorState where
  graphs : JMap String Graph
  navigationStack : List String
  nodeCounter : Nat
  selectedNodeIds : List String
  copiedNodes : List Node
  selectedConnectionId : Option String
deriving DecidableEq, Repr

-- ===== Constants (CONFIG and COLORS of the second variant) =====

def GRID_SIZE : Int := 32
def NODE_MIN_WIDTH : Int := 256
def NODE_MIN_HEIGHT : Int := 128
def LAYOUT_PADDING_X : Int := 350
def LAYOUT_PADDING_Y : Int := 200

/-- `COLORS[c] || COLORS.default`: lookup in the color table with fallback to
the default gray for unknown keys. -/
def colorsGet (c : String) : String :=
  if c = "default" then "#666666"
  else if c = "red" then "#ff4444"
  else if c = "green" then "#44ff44"
  else if c = "blue" then "#4444ff"
  else if c = "yellow" then "#ffff44"
  else if c = "purple" then "#ff44ff"
  else if c = "orange" then "#ff8844"
  else if c = "cyan" then "#44ffff"
  else "#666666"

-- ===== Getters and utilities =====

/-- The state built by `resetState` (and by `getInitialState`): one empty
root graph, the stack at the root, counter 1. -/
def initialState : EditorState :=
  { graphs := [("root", { id := "root", name := "Root", nodes := [], connections := [],
                          pan := ⟨0, 0⟩, zoom := 1 })],
    navigationStack := ["root"],
    nodeCounter := 1,
    selectedNodeIds := [],
    copiedNodes := [],
    selectedConnectionId := none }

/-- `get currentGraph()`: the graph named by the last navigation-stack entry
(`undefined` when the stack is empty or the id is absent). -/
def currentGraph (s : EditorState) : Option Graph :=
  match s.navigationStack.getLast? with
  | none => none
  | some gid => JMap.get? s.graphs gid

def currentGraphId (s : EditorState) : Option String := s.navigationStack.getLast?

/-- `findNode(nodeId)` on the current graph. -/
def findNode (s : EditorState) (nodeId : String) : Option Node :=
  match currentGraph s with
  | none => none
  | some g => g.nodes.find? (fun n => n.id == nodeId)

/-- `snap(value)`: `Math.round(value / GRID_SIZE) * GRID_SIZE`, written for
integer inputs (`Math.round(x)` is `floor(x + 1/2)`). -/
def snap (v : Int) : Int := ((v + 16).fdiv 32) * 32

/-- Mutation of the current graph in place (a no-op when the current id is
dangling, in which case the source would have thrown). -/
def modifyCurrentGraph (s : EditorState) (f : Graph → Graph) : EditorState :=
  match currentGraphId s with
  | none => s
  | some gid => { s with graphs := JMap.modifyVal s.graphs gid f }

-- ===== Navigation and interface sync =====

/-- The pin list a subgraph exposes upward through its graph-input nodes:
one pin per graph-input node, in node-sequence order, named by the node
title and colored by the resolved node color. -/
def pinsOfInputs (cg : Graph) : List Pin :=
  (cg.nodes.filter (fun n => n.type == "graph-input")).map
    (fun n => Pin.mk n.title (colorsGet n.color))

/-- Symmetrically, the pins from the graph-output nodes. -/
def pinsOfOutputs (cg : Graph) : List Pin :=
  (cg.nodes.filter (fun n => n.type == "graph-output")).map
    (fun n => Pin.mk n.title (colorsGet n.color))

/-- `updateParentInterface()`: in the parent graph (one stack level up), find
the node owning the current graph and overwrite its pin lists from the
current graph-input / graph-output nodes.  The arms returning `s` for a
missing parent or current graph are unreachable in states the editor builds
(the source would throw there). -/
def updateParentInterface (s : EditorState) : EditorState :=
  if s.navigationStack.length ≤ 1 then s
  else
    match s.navigationStack.getLast?, s.navigationStack.get? (s.navigationStack.length - 2) with
    | some currentId, some parentId =>
      match JMap.get? s.graphs parentId with
      | none => s
      | some parentGraph =>
        match parentGraph.nodes.find? (fun n => n.subgraphId == some currentId) with
        | none => s
        | some _ =>
          match JMap.get? s.graphs currentId with
          | none => s
          | some cg =>
            let parentGraph' :=
              { parentGraph with
                nodes := replaceFirst (fun n => n.subgraphId == some currentId)
                  (fun n => { n with inputs := pinsOfInputs cg, outputs := pinsOfOutputs cg })
                  parentGraph.nodes }
            { s with graphs := JMap.set s.graphs parentId parentGraph' }
    | _, _ => s

/-- Overwriting a node pin lists from the I/O nodes of graph `G`. -/
def pinsUpd (G : Graph) (n : Node) : Node :=
  { n with inputs := pinsOfInputs G, outputs := pinsOfOutputs G }

/-- The parent graph after a sync: its first node owning `gid` gets the pin
lists of `G`. -/
def syncedParent (gid : String) (G PG : Graph) : Graph :=
  { PG with nodes := replaceFirst (fun n => n.subgraphId == some gid) (pinsUpd G) PG.nodes }

/-- The state `updateParentInterface` produces when the stack tail is
`[pid, gid]`, graph `gid` holds `G`, and the parent graph `pid` holds `PG`
with an owning node. -/
def syncedState (s : EditorState) (pid gid : String) (G PG : Graph) : EditorState :=
  { s with graphs := JMap.set s.graphs pid (syncedParent gid G PG) }

/-- The state `updateNodeProp` builds just before its own parent-interface
sync, when the edited property is the title, the new value "Score", and the
current graph is `gid`. -/
def titleEditFun (nid : String) (g : Graph) : Graph :=
  let upd : Node → Node := fun n => { n with title := "Score" }
  { g with nodes := replaceFirst (fun n => n.id == nid) upd g.nodes }

def titleEditedState (s : EditorState) (gid nid : String) : EditorState :=
  { s with graphs := JMap.modifyVal s.graphs gid (titleEditFun nid) }

/-- `enterNode(nodeId)`: push the subgraph id of the clicked node when it has
one (JavaScript truthiness: a null or empty id is a no-op). -/
def enterNode (s : EditorState) (nodeId : String) : EditorState :=
  match findNode s nodeId with
  | none => s
  | some node =>
    match node.subgraphId with
    | some sg =>
      if sg ≠ "" then
        { s with navigationStack := s.navigationStack ++ [sg], selectedNodeIds := [] }
      else s
    | none => s

/-- `navigateToLevel(level)`: truncate the stack to `level + 1` entries
unless `level` is at or past the tail. -/
def navigateToLevel (s : EditorState) (level : Int) : EditorState :=
  if level ≥ (s.navigationStack.length : Int) - 1 then s
  else
    { s with navigationStack := jsSliceTo s.navigationStack (level + 1),
             selectedNodeIds := [] }

-- ===== Node operations =====

/-- `addNode(type, position)`.  The position is taken as the already computed
canvas coordinate pair (the default screen-centre computation is DOM-bound
and outside the model). -/
def addNode (s : EditorState) (type : String) (pos : Int × Int) : EditorState :=
  match currentGraphId s, currentGraph s with
  | some gid, some _ =>
    let nodeId := "node_" ++ natToStr s.nodeCounter
    let s₁ := { s with nodeCounter := s.nodeCounter + 1 }
    let base : Node :=
      { id := nodeId, x := snap pos.1, y := snap pos.2,
        width := NODE_MIN_WIDTH, height := NODE_MIN_HEIGHT,
        color := "default", type := type, text := "", title := "",
        inputs := [], outputs := [], subgraphId := none }
    let (node, s₂) :=
      if type = "default" then
        let title := "Node " ++ natToStr (s₁.nodeCounter - 1)
        let subgraphId := "graph_" ++ nodeId
        let sub : Graph := { id := subgraphId, name := title, nodes := [],
                             connections := [], pan := ⟨0, 0⟩, zoom := 1 }
        ({ base with title := title, subgraphId := some subgraphId },
         { s₁ with graphs := JMap.set s₁.graphs subgraphId sub })
      else if type = "graph-input" then
        ({ base with title := "Input", color := "cyan",
                     outputs := [Pin.mk "Value" "#44ffff"] }, s₁)
      else if type = "graph-output" then
        ({ base with title := "Output", color := "orange",
                     inputs := [Pin.mk "Value" "#ff8844"] }, s₁)
      else (base, s₁)
    let graphs₃ := JMap.modifyVal s₂.graphs gid (fun g => { g with nodes := g.nodes ++ [node] })
    let s₃ := { s₂ with graphs := graphs₃ }
    if type ≠ "default" then updateParentInterface s₃ else s₃
  | _, _ => s

/-- `deleteSelected()`: drop the selected nodes from the current graph,
delete each of their directly owned subgraphs from the store, drop every
connection touching them, clear the selection, and re-sync the parent
interface when an I/O node was removed.  Note the deletion of owned
subgraphs is one level deep only. -/
def deleteSelected (s : EditorState) : EditorState :=
  if s.selectedNodeIds.isEmpty then s
  else
    match currentGraphId s, currentGraph s with
    | some gid, some g =>
      let deleted := g.nodes.filter (fun n => s.selectedNodeIds.contains n.id)
      let ioDeleted := deleted.any (fun n => n.type != "default")
      let subIds := deleted.filterMap (fun n =>
        match n.subgraphId with
        | some sg => if sg ≠ "" then some sg else none
        | none => none)
      let graphs₁ := subIds.foldl (fun m sg => JMap.del m sg) s.graphs
      let newNodes := g.nodes.filter (fun n => ¬ s.selectedNodeIds.contains n.id)
      let newConns := g.connections.filter (fun c =>
        ¬ s.selectedNodeIds.contains c.start.nodeId ∧
        ¬ s.selectedNodeIds.contains c.endP.nodeId)
      let graphs₂ := JMap.modifyVal graphs₁ gid
        (fun old => { old with nodes := newNodes, connections := newConns })
      let s₁ := { s with graphs := graphs₂, selectedNodeIds := [] }
      if ioDeleted then updateParentInterface s₁ else s₁
    | _, _ => s

/-- `copySelected()`: deep-copy the selected nodes of the current graph into
the clipboard. -/
def copySelected (s : EditorState) : EditorState :=
  if s.selectedNodeIds.isEmpty then s
  else
    match currentGraph s with
    | none => s
    | some g =>
      { s with copiedNodes := g.nodes.filter (fun n => s.selectedNodeIds.contains n.id) }

/-- One clipboard entry of `pasteNodes()`: fresh node id, grid-size offset,
and a one-level clone of the directly owned subgraph (nodes inside the clone
keep their own `subgraphId` values). -/
def pasteOne (gid : String) (s : EditorState) (nodeData : Node) : EditorState :=
  let nodeId := "node_" ++ natToStr s.nodeCounter
  let s₁ := { s with nodeCounter := s.nodeCounter + 1 }
  let node := { nodeData with id := nodeId,
                              x := nodeData.x + GRID_SIZE, y := nodeData.y + GRID_SIZE }
  let (node', s₂) :=
    match node.subgraphId with
    | some oldSub =>
      if oldSub ≠ "" then
        match JMap.get? s₁.graphs oldSub with
        | some oldSubgraph =>
          let newSubgraphId := "graph_" ++ nodeId
          let clone : Graph := { oldSubgraph with id := newSubgraphId, name := node.title }
          ({ node with subgraphId := some newSubgraphId },
           { s₁ with graphs := JMap.set s₁.graphs newSubgraphId clone })
        | none => (node, s₁)
      else (node, s₁)
    | none => (node, s₁)
  let graphs₃ := JMap.modifyVal s₂.graphs gid (fun g => { g with nodes := g.nodes ++ [node'] })
  { s₂ with graphs := graphs₃, selectedNodeIds := s₂.selectedNodeIds ++ [node'.id] }

/-- `pasteNodes()`. -/
def pasteNodes (s : EditorState) : EditorState :=
  if s.copiedNodes.isEmpty then s
  else
    match currentGraphId s, currentGraph s with
    | some gid, some _ =>
      let s₁ := { s with selectedNodeIds := [] }
      s.copiedNodes.foldl (pasteOne gid) s₁
    | _, _ => s

/-- `updateNodeProp(nodeId, prop, value)` restricted to the two properties
the code ever passes (title and text); for a title change the owned subgraph
is renamed and, for an I/O node, the parent interface re-synced. -/
def updateNodeProp (s : EditorState) (nodeId prop value : String) : EditorState :=
  match findNode s nodeId with
  | none => s
  | some node =>
    let setProp : Node → Node := fun n =>
      if prop = "title" then { n with title := value }
      else if prop = "text" then { n with text := value }
      else n
    let s₁ := modifyCurrentGraph s (fun g =>
      { g with nodes := replaceFirst (fun n => n.id == nodeId) setProp g.nodes })
    if prop = "title" then
      let s₂ :=
        match node.subgraphId with
        | some sg =>
          let graphs₂ := JMap.modifyVal s₁.graphs sg (fun sub => { sub with name := value })
          { s₁ with graphs := graphs₂ }
        | none => s₁
      if node.type ≠ "default" then updateParentInterface s₂ else s₂
    else s₁

-- ===== Connections =====

/-- The data of one endpoint of an in-progress connection: node id, pin side
("input" / "output" as rendered into the DOM dataset), and the
`parseInt`-parsed pin index. -/
structure PointRef where
  nodeId : String
  type : String
  index : Option Int
deriving DecidableEq, Repr

/-- The orientation step of `finishConnection`: `output` is whichever
endpoint has the "output" side, `input` whichever has the "input" side, and
the pushed record takes its `start` from the former and its `end` from the
latter. -/
def connOf (start endp : PointRef) (connId : String) : Connection :=
  let output := if start.type == "output" then start else endp
  let input := if start.type == "input" then start else endp
  { id := connId,
    start := { nodeId := output.nodeId, index := output.index },
    endP := { nodeId := input.nodeId, index := input.index } }

/-- The duplicate check of `finishConnection`: some existing connection has
strictly equal endpoint node ids and pin indexes (number equality `===`, so
a NaN index never matches). -/
def dupExists (conns : List Connection) (start endp : PointRef) : Bool :=
  let output := if start.type == "output" then start else endp
  let input := if start.type == "input" then start else endp
  conns.any (fun c =>
    c.start.nodeId == output.nodeId && jsEqNum c.start.index output.index &&
    c.endP.nodeId == input.nodeId && jsEqNum c.endP.index input.index)

/-- Core of `finishConnection` on the connection list: reject self-loops and
same-polarity pairs, orient the pair, reject duplicates, otherwise push. -/
def finishConnsCore (conns : List Connection) (start endp : PointRef) (connId : String) :
    List Connection :=
  if start.nodeId == endp.nodeId || start.type == endp.type then conns
  else if dupExists conns start endp then conns
  else conns ++ [connOf start endp connId]

/-- `finishConnection` on the current graph (the connection id comes from
`Date.now()` and is passed in as an opaque string). -/
def finishConnection (g : Graph) (start endp : PointRef) (connId : String) : Graph :=
  { g with connections := finishConnsCore g.connections start endp connId }


-- ===== Auto layout (layoutGraph) =====

/-- One BFS dequeue step run to a fuel bound.  The fuel
`graph.nodes.length` always suffices: every node is enqueued at most once
(a node is enqueued only when it first receives a layer, and roots already
have one), so the number of dequeues is bounded by the node count plus the
initial queue, both at most the node count. -/
def layoutBFS (g : Graph) : Nat → JMap String Nat → List Node → JMap String Nat
  | 0, layers, _ => layers
  | _ + 1, layers, [] => layers
  | fuel + 1, layers, current :: queue =>
    let currentLayer := (JMap.get? layers current.id).getD 0
    let outgoing := g.connections.filter (fun c => c.start.nodeId == current.id)
    let (layers', enq) := outgoing.foldl
      (fun (acc : JMap String Nat × List Node) conn =>
        let (ls, q) := acc
        let targetId := conn.endP.nodeId
        if JMap.hasKey ls targetId then (ls, q)
        else
          let ls' := JMap.set ls targetId (currentLayer + 1)
          match g.nodes.find? (fun n => n.id == targetId) with
          | some target => (ls', q ++ [target])
          | none => (ls', q))
      (layers, [])
    layoutBFS g fuel layers' (queue ++ enq)

/-- `layoutGraph(graph)`: zero-in-degree nodes form layer 0, a BFS assigns
`currentLayer + 1` to each first-visited successor, nodes are then placed at
`(layer * LAYOUT_PADDING_X, indexWithinLayer * LAYOUT_PADDING_Y)` in node
order, and pan/zoom are reset. -/
def layoutGraph (g : Graph) : Graph :=
  if g.nodes.isEmpty then g
  else
    let initial := g.nodes.foldl
      (fun (acc : JMap String Nat × List Node) node =>
        let hasIncoming := g.connections.any (fun c => c.endP.nodeId == node.id)
        if hasIncoming then acc
        else (JMap.set acc.1 node.id 0, acc.2 ++ [node]))
      ([], [])
    let layers := layoutBFS g g.nodes.length initial.1 initial.2
    let positioned := g.nodes.foldl
      (fun (acc : JMap Nat Nat × List Node) node =>
        let layer := (JMap.get? layers node.id).getD 0
        let index := (JMap.get? acc.1 layer).getD 0
        let node' := { node with x := (layer : Int) * LAYOUT_PADDING_X,
                                 y := (index : Int) * LAYOUT_PADDING_Y }
        (JMap.set acc.1 layer (index + 1), acc.2 ++ [node']))
      ([], [])
    { g with nodes := positioned.2, pan := ⟨50, 50⟩, zoom := 1 }

-- ===== Readable format data shapes =====

/-- A connection entry of the readable file:
`from: "handle.outputs.pinRef"`, `to: "handle.inputs.pinRef"` (the source
field names `from` and `to` collide with Lean syntax and are rendered
`fromRef` / `toRef`). -/
structure RConn where
  fromRef : String
  toRef : String
deriving DecidableEq, Repr

mutual
/-- A graph of the readable file: `nodes` and `connections` may be absent in
a hand-edited file (absence models `undefined`). -/
inductive RGraphJ : Type where
  | mk (nodes : Option (List RNodeJ)) (connections : Option (List RConn)) : RGraphJ

/-- A node of the readable file: handle, title, text, color, type, pin
lists, and an optional inline subgraph. -/
inductive RNodeJ : Type where
  | mk (id title text color type : String) (inputs outputs : List Pin)
       (subgraph : Option RGraphJ) : RNodeJ
end

def RGraphJ.nodes? : RGraphJ → Option (List RNodeJ)
  | .mk ns _ => ns

def RGraphJ.connections? : RGraphJ → Option (List RConn)
  | .mk _ cs => cs

-- ===== Readable import (convertFromReadable) =====

/-- Resolution of one readable connection entry against the finished node
list of a graph, mirroring the second pass of `convertFromReadable`:
`from` / `to` strings are split on dots, an explicit `:index` suffix is
preferred (its `parseInt` can yield NaN, which then flows into the stored
index), otherwise a first-match name lookup runs; an unresolvable endpoint
(`findIndex` returning -1) drops the connection. -/
def convOneConn (h2i : JMap String String) (nodes : List Node) (connId : String)
    (rc : RConn) : Option Connection :=
  let fromParts := jsSplit '.' rc.fromRef
  let toParts := jsSplit '.' rc.toRef
  let startHandle := fromParts.headD ""
  let endHandle := toParts.headD ""
  let startPin0 := joinWithDot (fromParts.drop 2)
  let (startPin, startIndex0) :=
    if jsContainsChar startPin0 ':' then
      let parts := jsSplit ':' startPin0
      (parts.headD "", match parts.get? 1 with
                       | some idx => jsParseInt idx
                       | none => none)
    else (startPin0, some (-1))
  let endPin0 := joinWithDot (toParts.drop 2)
  let (endPin, endIndex0) :=
    if jsContainsChar endPin0 ':' then
      let parts := jsSplit ':' endPin0
      (parts.headD "", match parts.get? 1 with
                       | some idx => jsParseInt idx
                       | none => none)
    else (endPin0, some (-1))
  match JMap.get? h2i startHandle, JMap.get? h2i endHandle with
  | some startId, some endId =>
    match nodes.find? (fun n => n.id == startId), nodes.find? (fun n => n.id == endId) with
    | some startNode, some endNode =>
      let startIndex := if startIndex0 == some (-1)
                        then some (jsFindIndex (fun o => o.name == startPin) startNode.outputs)
                        else startIndex0
      let endIndex := if endIndex0 == some (-1)
                      then some (jsFindIndex (fun i => i.name == endPin) endNode.inputs)
                      else endIndex0
      if startIndex != some (-1) && endIndex != some (-1) then
        some { id := connId,
               start := { nodeId := startId, index := startIndex },
               endP := { nodeId := endId, index := endIndex } }
      else none
    | _, _ => none
  | _, _ => none

/-- Second pass of `convertFromReadable` over a connection list (connection
ids come from `Date.now()` and `Math.random()` in the source and are
modelled as an opaque graph-id/position tag). -/
def convConns (gid : String) (cs : List RConn) (h2i : JMap String String)
    (nodes : List Node) : List Connection :=
  (cs.enum.filterMap (fun p =>
    convOneConn h2i nodes ("conn_" ++ gid ++ "_" ++ natToStr p.1) p.2))

mutual
/-- `convertFromReadable(readable)` for one graph: first pass materialises
nodes (allocating fresh internal ids and handle map entries, recursing into
inline subgraphs, creating an empty subgraph for default nodes without one),
the second pass resolves connections, and only then is the graph stored.  A
missing `nodes` array raises the `TypeError` that `undefined.forEach` throws
in the source; the error is returned together with the state mutated so far,
because the exception escapes with those mutations applied. -/
def convGraph (gid gname : String) (rg : RGraphJ) (st : EditorState)
    (h2i : JMap String String) : EditorState × JMap String String × Option String :=
  match rg with
  | .mk nodesOpt connsOpt =>
    match nodesOpt with
    | none => (st, h2i, some "Cannot read properties of undefined (reading 'forEach')")
    | some rnodes =>
      match convNodes rnodes st h2i with
      | (st₁, h2i₁, _, some e) => (st₁, h2i₁, some e)
      | (st₁, h2i₁, builtNodes, none) =>
        let rawConns := match connsOpt with
                        | some cs => cs
                        | none => []
        let conns := convConns gid rawConns h2i₁ builtNodes
        let newGraph : Graph := { id := gid, name := gname, nodes := builtNodes,
                                  connections := conns, pan := ⟨50, 50⟩, zoom := 1 }
        ({ st₁ with graphs := JMap.set st₁.graphs gid newGraph }, h2i₁, none)

/-- First pass of `convertFromReadable` over a node list.  On an error the
nodes accumulated so far are discarded (the thrown exception skips the store
of the enclosing graph) but state mutations done before the throw remain. -/
def convNodes (l : List RNodeJ) (st : EditorState) (h2i : JMap String String) :
    EditorState × JMap String String × List Node × Option String :=
  match l with
  | [] => (st, h2i, [], none)
  | rn :: rest =>
    match rn with
    | .mk rid rtitle rtext rcolor rtype rinputs routputs rsub =>
      let nodeId := "node_" ++ natToStr st.nodeCounter
      let st₀ := { st with nodeCounter := st.nodeCounter + 1 }
      let h2i₀ := JMap.set h2i rid nodeId
      let base : Node := { id := nodeId, x := 0, y := 0,
                           width := NODE_MIN_WIDTH, height := NODE_MIN_HEIGHT,
                           color := rcolor, type := rtype, text := rtext, title := rtitle,
                           inputs := rinputs, outputs := routputs, subgraphId := none }
      match rsub with
      | some sub =>
        let subId := "graph_" ++ nodeId
        match convGraph subId rtitle sub st₀ h2i₀ with
        | (st₁, h2i₁, some e) => (st₁, h2i₁, [], some e)
        | (st₁, h2i₁, none) =>
          let node := { base with subgraphId := some subId }
          match convNodes rest st₁ h2i₁ with
          | (st₂, h2i₂, ns, err) => (st₂, h2i₂, node :: ns, err)
      | none =>
        if rtype == "default" then
          let subId := "graph_" ++ nodeId
          let emptySub : Graph := { id := subId, name := rtitle, nodes := [],
                                    connections := [], pan := ⟨0, 0⟩, zoom := 1 }
          let st₁ := { st₀ with graphs := JMap.set st₀.graphs subId emptySub }
          let node := { base with subgraphId := some subId }
          match convNodes rest st₁ h2i₀ with
          | (st₂, h2i₂, ns, err) => (st₂, h2i₂, node :: ns, err)
        else
          match convNodes rest st₀ h2i₀ with
          | (st₂, h2i₂, ns, err) => (st₂, h2i₂, base :: ns, err)
end

-- ===== Handle generation and readable export =====

/-- Collapse every maximal run of JavaScript whitespace into a single
hyphen, written with an in-a-run flag so the recursion is structural: the
model of `.replace(/\s+/g, '-')`. -/
def collapseWsAux : Bool → List Char → List Char
  | _, [] => []
  | prevWs, c :: cs =>
    if isJsSpace c then
      if prevWs then collapseWsAux true cs else '-' :: collapseWsAux true cs
    else c :: collapseWsAux false cs

def collapseWs (l : List Char) : List Char := collapseWsAux false l

/-- The slug of `generateHandle`: lowercase, trim, strip everything outside
lowercase letters, digits, whitespace and hyphen, collapse whitespace to
hyphens, with the constant fallback for empty results. -/
def slugify (baseName : String) : String :=
  let base := if baseName = "" then "unnamed-node" else baseName
  let lowered := (jsTrim (jsToLowerStr base)).toList
  let kept := lowered.filter (fun c =>
    ('a' ≤ c && c ≤ 'z') || ('0' ≤ c && c ≤ '9') || isJsSpace c || c = '-')
  let collapsed := String.mk (collapseWs kept)
  if collapsed = "" then "unnamed-node" else collapsed

/-- The uniquing loop of `generateHandle`, with fuel: the source loops until
the candidate avoids `existingHandles`, which takes at most one try per
existing handle. -/
def uniqueHandle (base : String) (existing : List String) : Nat → Nat → String
  | 0, counter => base ++ "-" ++ natToStr counter
  | fuel + 1, counter =>
    let candidate := if counter = 1 then base else base ++ "-" ++ natToStr counter
    if existing.contains candidate then uniqueHandle base existing fuel (counter + 1)
    else candidate

/-- `generateHandle(baseName, existingHandles)`. -/
def generateHandle (baseName : String) (existing : List String) : String :=
  uniqueHandle (slugify baseName) existing (existing.length + 2) 1

/-- The first pass of `saveSimpleGraph`: walk every graph in store order and
every node in node order, assigning each node id a handle that is unique
across the whole file. -/
def buildHandles (graphs : JMap String Graph) : JMap String String :=
  (graphs.values.foldl
    (fun (acc : JMap String String × List String) g =>
      g.nodes.foldl
        (fun (acc : JMap String String × List String) node =>
          let handle := generateHandle (if node.title = "" then node.type else node.title) acc.2
          (JMap.set acc.1 node.id handle, acc.2 ++ [handle]))
        acc)
    ([], [])).1

/-- Pin lookup `pins[index]` for a possibly-NaN index. -/
def jsIndexPin (pins : List Pin) (i : Option Int) : Option Pin :=
  match i with
  | some i => if 0 ≤ i then pins.get? i.toNat else none
  | none => none

/-- One connection of `convertToReadable`: endpoints become
`handle.outputs.pinRef` strings, a pin name that is duplicated on its side
gets an explicit `:index` suffix, and a dangling endpoint drops the entry
(the `.filter(Boolean)`). -/
def readableConn (n2h : JMap String String) (g : Graph) (conn : Connection) : Option RConn :=
  match g.nodes.find? (fun n => n.id == conn.start.nodeId),
        g.nodes.find? (fun n => n.id == conn.endP.nodeId) with
  | some startNode, some endNode =>
    let startPin := match jsIndexPin startNode.outputs conn.start.index with
                    | some p => p.name
                    | none => "output_" ++ jsNumToStr conn.start.index
    let startAmbiguous := (startNode.outputs.filter (fun p => p.name == startPin)).length > 1
    let startRef := if startAmbiguous then startPin ++ ":" ++ jsNumToStr conn.start.index
                    else startPin
    let endPin := match jsIndexPin endNode.inputs conn.endP.index with
                  | some p => p.name
                  | none => "input_" ++ jsNumToStr conn.endP.index
    let endAmbiguous := (endNode.inputs.filter (fun p => p.name == endPin)).length > 1
    let endRef := if endAmbiguous then endPin ++ ":" ++ jsNumToStr conn.endP.index
                  else endPin
    let fromHandle := (JMap.get? n2h conn.start.nodeId).getD "undefined"
    let toHandle := (JMap.get? n2h conn.endP.nodeId).getD "undefined"
    some { fromRef := fromHandle ++ ".outputs." ++ startRef,
           toRef := toHandle ++ ".inputs." ++ endRef }
  | _, _ => none

/-- `convertToReadable(graphId, nodeToHandle)`, with a recursion-depth fuel
(the source recurses unboundedly through `subgraphId` links; any store the
editor builds is a tree of graphs of depth at most the store size, so a fuel
of the store size plus one reproduces it exactly).  A missing graph id
returns `null`. -/
def convertToReadable (graphs : JMap String Graph) (n2h : JMap String String) :
    Nat → String → Option RGraphJ
  | 0, _ => none
  | fuel + 1, graphId =>
    match JMap.get? graphs graphId with
    | none => none
    | some g =>
      let rnodes := g.nodes.map (fun node =>
        RNodeJ.mk ((JMap.get? n2h node.id).getD "undefined")
          node.title node.text node.color node.type node.inputs node.outputs
          (match node.subgraphId with
           | some sg => if sg ≠ "" then convertToReadable graphs n2h fuel sg else none
           | none => none))
      let rconns := g.connections.filterMap (readableConn n2h g)
      some (RGraphJ.mk (some rnodes) (some rconns))

-- ===== Save data =====

/-- The object written by `saveGraph` (after the project-name prompt):
`version "1.0.0"` and the whole graph store. -/
structure FullFile where
  version : String
  graphs : JMap String Graph
deriving DecidableEq, Repr

def saveData (s : EditorState) : FullFile :=
  { version := "1.0.0", graphs := s.graphs }

/-- The object written by `saveSimpleGraph` (after the project-name prompt):
exactly the top-level keys `format`, `title` and `graph`. -/
structure ReadableFile where
  format : String
  title : String
  graph : Option RGraphJ

def rootNameOf (s : EditorState) : String :=
  ((JMap.get? s.graphs "root").map (fun g => g.name)).getD ""

def saveSimpleData (s : EditorState) : ReadableFile :=
  let n2h := buildHandles s.graphs
  { format := "node-graph-v4-logic-only",
    title := rootNameOf s,
    graph := convertToReadable s.graphs n2h (s.graphs.length + 1) "root" }

-- ===== Load =====

/-- The outcome of `JSON.parse` on the chosen file, as far as `loadGraph`
inspects it: a parse failure (the thrown error message), a falsy parse
result, or an object carrying the top-level fields that format detection and
the loaders read.  `story` is never read by this variant of the code but is
kept so the legacy-format claim can be stated. -/
structure FileData where
  format : Option String
  graph : Option RGraphJ
  graphs : Option (JMap String Graph)
  version : Option String
  title : Option String
  story : Option Unit

inductive LoadInput where
  | parseError (msg : String)
  | parsedFalsy
  | parsed (d : FileData)

/-- The readable-format detection
`data.format?.startsWith("node-graph-v") && data.graph`. -/
def detectReadable (d : FileData) : Bool :=
  (match d.format with
   | some f => jsStartsWith f "node-graph-v"
   | none => false) && d.graph.isSome

/-- The full-fidelity detection `data.graphs && data.version` (an empty
version string is falsy). -/
def detectFull (d : FileData) : Bool :=
  d.graphs.isSome && jsTruthyStr d.version

/-- `loadFullGraph(data)`: reset, swap the store wholesale, then recompute
the node counter from the maximal numeric id suffix
(`parseInt(node.id.split('_')[1], 10)`). -/
def nodeIdSuffix (id : String) : Option Int :=
  match (jsSplit '_' id).get? 1 with
  | none => none
  | some s => jsParseInt s

/-- One step of the counter-recompute fold:
`if (!isNaN(id) && id > maxId) maxId = id`. -/
def maxIdStep (maxId : Int) (node : Node) : Int :=
  match nodeIdSuffix node.id with
  | some v => if v > maxId then v else maxId
  | none => maxId

def maxLoadedId (graphs : JMap String Graph) : Int :=
  (graphs.values.flatMap (fun g => g.nodes)).foldl maxIdStep 0

def loadFullGraph (gs : JMap String Graph) : EditorState :=
  { initialState with graphs := gs, nodeCounter := (maxLoadedId gs + 1).toNat }

/-- `loadReadableGraph(data)`: reset, convert the nested structure (errors
thrown during the conversion escape with the store already reset and
partially rebuilt), then lay out every graph and restore the root name. -/
def loadReadableGraph (d : FileData) (rg : RGraphJ) : EditorState × Option String :=
  let rootName := match d.title with
                  | some t => if t ≠ "" then t else "Loaded Graph"
                  | none => "Loaded Graph"
  match convGraph "root" rootName rg initialState [] with
  | (st, _, some e) => (st, some e)
  | (st, _, none) =>
    let laidOut := st.graphs.map (fun p => (p.1, layoutGraph p.2))
    let named := JMap.modifyVal laidOut "root" (fun g => { g with name := rootName })
    ({ st with graphs := named }, none)

/-- `loadGraph`: JSON parse, falsiness check, format detection in priority
order, with every thrown error caught and surfaced through
`alert('Error loading graph: ' + error.message)`.  The two `none` match arms
are unreachable because the corresponding detection just succeeded. -/
def loadGraph (s : EditorState) (input : LoadInput) : EditorState × Option String :=
  match input with
  | .parseError msg => (s, some ("Error loading graph: " ++ msg))
  | .parsedFalsy => (s, some "Error loading graph: File is empty or invalid.")
  | .parsed d =>
    if detectReadable d then
      match d.graph with
      | some rg =>
        match loadReadableGraph d rg with
        | (s', some e) => (s', some ("Error loading graph: " ++ e))
        | (s', none) => (s', none)
      | none => (s, some "Error loading graph: unreachable")
    else if detectFull d then
      match d.graphs with
      | some gs => (loadFullGraph gs, none)
      | none => (s, some "Error loading graph: unreachable")
    else (s, some "Error loading graph: Invalid or unsupported file format.")

/-- The `FileData` view of a just-saved full-fidelity file. -/
def fileOfFull (f : FullFile) : FileData :=
  { format := none, graph := none, graphs := some f.graphs,
    version := some f.version, title := none, story := none }

-- ===== Derived notions used by the claims =====

/-- Graph ids reachable from the root graph by following the `subgraphId`
fields of stored nodes (the ownership relation of the spec), computed with a
fuel of the store size. -/
def reachableStep (graphs : JMap String Graph) (acc : List String) : List String :=
  acc.foldl
    (fun acc gid =>
      match JMap.get? graphs gid with
      | none => acc
      | some g =>
        g.nodes.foldl
          (fun acc n =>
            match n.subgraphId with
            | some sg => if acc.contains sg then acc else acc ++ [sg]
            | none => acc)
          acc)
    acc

def reachableGraphIds (graphs : JMap String Graph) : List String :=
  (List.range (graphs.length + 1)).foldl (fun acc _ => reachableStep graphs acc) ["root"]

/-- The number of stored nodes whose `subgraphId` references the given graph
id, across every graph of the store. -/
def countRefs (graphs : JMap String Graph) (gid : String) : Nat :=
  ((graphs.values.flatMap (fun g => g.nodes)).filter
    (fun n => n.subgraphId == some gid)).length

/-- The key whose uniqueness the connection-validity invariant demands. -/
def connKey (c : Connection) : String × Option Int × String × Option Int :=
  (c.start.nodeId, c.start.index, c.endP.nodeId, c.endP.index)

/-- The connection-validity invariant of the spec: no self-loop, no two
connections with an identical endpoint tuple. -/
def ConnOK (l : List Connection) : Prop :=
  (∀ c ∈ l, c.start.nodeId ≠ c.endP.nodeId) ∧ List.Pairwise (fun a b => connKey a ≠ connKey b) l

/-- Connections whose pin indexes are actual numbers, as every connection
created at runtime is (`parseInt` of a rendered pin index never yields
NaN). -/
def AllNumIdx (l : List Connection) : Prop :=
  ∀ c ∈ l, c.start.index.isSome ∧ c.endP.index.isSome

/-- An endpoint descriptor as the mouse-up handler builds it from a rendered
connection point: side is one of the two dataset literals, index a parsed
number. -/
def RuntimeRef (p : PointRef) : Prop :=
  (p.type = "input" ∨ p.type = "output") ∧ p.index.isSome

/-- Connection lists reachable by runtime connection creation: start from no
connections and repeatedly run `finishConnection` with endpoint descriptors
taken from rendered connection points. -/
inductive ReachableConns : List Connection → Prop where
  | nil : ReachableConns []
  | step (l : List Connection) (s e : PointRef) (cid : String) :
      ReachableConns l → RuntimeRef s → RuntimeRef e →
      ReachableConns (finishConnsCore l s e cid)

-- ===== Navigation operations (claim C10) =====

/-- The operations that touch the navigation stack: entering a node,
clicking a breadcrumb, and a load (both loaders run `resetState`, which puts
the stack back to exactly the root, and never touch the stack again). -/
inductive NavOp where
  | enter (nodeId : String)
  | navTo (level : Int)
  | load
deriving DecidableEq, Repr

def applyNav (s : EditorState) : NavOp → EditorState
  | .enter nid => enterNode s nid
  | .navTo level => navigateToLevel s level
  | .load => initialState

/-- The navigation-stack invariant: non-empty with the root first. -/
def navOk (s : EditorState) : Bool :=
  !s.navigationStack.isEmpty && s.navigationStack.head? == some "root"

/-- Store side conditions under which navigation cannot dangle: the root
graph exists, every stack entry names a stored graph, and every stored
node's `subgraphId` names a stored graph. -/
def storeClosedNav (s : EditorState) : Bool :=
  (JMap.get? s.graphs "root").isSome &&
  s.navigationStack.all (fun gid => (JMap.get? s.graphs gid).isSome) &&
  s.graphs.all (fun p => p.2.nodes.all (fun n =>
    match n.subgraphId with
    | some sg => (JMap.get? s.graphs sg).isSome
    | none => true))

-- ===== Concrete example data =====

/-- An empty default node template used by the example states. -/
def mkDefaultNode (id title : String) (sub : Option String) : Node :=
  { id := id, x := 0, y := 0, width := 256, height := 128, color := "default",
    type := "default", text := "", title := title, inputs := [], outputs := [],
    subgraphId := sub }

def mkEmptyGraph (id name : String) : Graph :=
  { id := id, name := name, nodes := [], connections := [], pan := ⟨0, 0⟩, zoom := 1 }

/-- Claim C2 example: a store holding one node, about to be clobbered by a
failing readable load. -/
def c2State : EditorState :=
  { initialState with
    graphs := [("root", { mkEmptyGraph "root" "Root" with
                          nodes := [mkDefaultNode "node_1" "N" none] })] }

/-- Claim C2 example input: detected as readable (`format` has the readable
prefix, `graph` present) but with no `nodes` array, so conversion throws. -/
def c2BadFile : FileData :=
  { format := some "node-graph-v4-logic-only", graph := some (RGraphJ.mk none none),
    graphs := none, version := none, title := some "T", story := none }

/-- Claim C3 example: root holds n1 owning g1; g1 holds n2 owning g2. -/
def c3State : EditorState :=
  { initialState with
    graphs :=
      [("root", { mkEmptyGraph "root" "Root" with
                  nodes := [mkDefaultNode "node_1" "Outer" (some "g1")] }),
       ("g1", { mkEmptyGraph "g1" "Outer" with
                nodes := [mkDefaultNode "node_2" "Inner" (some "g2")] }),
       ("g2", mkEmptyGraph "g2" "Inner")],
    selectedNodeIds := ["node_1"],
    nodeCounter := 3 }

/-- Claim C4 example: root holds node A owning gA; gA holds node B owning
gB; A is selected for copy. -/
def c4State : EditorState :=
  { initialState with
    graphs :=
      [("root", { mkEmptyGraph "root" "Root" with
                  nodes := [mkDefaultNode "node_1" "A" (some "gA")] }),
       ("gA", { mkEmptyGraph "gA" "A" with
                nodes := [mkDefaultNode "node_2" "B" (some "gB")] }),
       ("gB", mkEmptyGraph "gB" "B")],
    selectedNodeIds := ["node_1"],
    nodeCounter := 3 }

/-- Claim C6 example: the root graph holds node P owning subgraph G, the
view is inside G. -/
def c6State : EditorState :=
  { initialState with
    graphs :=
      [("root", { mkEmptyGraph "root" "Root" with
                  nodes := [mkDefaultNode "node_1" "P" (some "G")] }),
       ("G", mkEmptyGraph "G" "P")],
    navigationStack := ["root", "G"],
    nodeCounter := 2 }

/-- Claim C7 example input: top level carries `story` and `title` only (the
legacy simple format). -/
def c7LegacyFile : FileData :=
  { format := none, graph := none, graphs := none, version := none,
    title := some "My Story", story := some () }

/-- Claim C9 example: A feeds B feeds C, D is isolated; positions, pan and
zoom start dirty to show the layout overwrites them. -/
def c9Graph : Graph :=
  { id := "root", name := "R",
    nodes := [{ mkDefaultNode "A" "A" none with x := 9, y := 9 },
              { mkDefaultNode "B" "B" none with x := 5, y := 5 },
              { mkDefaultNode "C" "C" none with x := 3, y := 3 },
              { mkDefaultNode "D" "D" none with x := 1, y := 1 }],
    connections := [{ id := "c1", start := ⟨"A", some 0⟩, endP := ⟨"B", some 0⟩ },
                    { id := "c2", start := ⟨"B", some 0⟩, endP := ⟨"C", some 0⟩ }],
    pan := ⟨7, 8⟩, zoom := 2 }

/-- A tiny store used by witnesses of the save/load claims: root plus one
default node owning a subgraph. -/
def c1State : EditorState :=
  { initialState with
    graphs :=
      [("root", { mkEmptyGraph "root" "Project" with
                  nodes := [mkDefaultNode "node_3" "Outer" (some "graph_node_3")] }),
       ("graph_node_3", mkEmptyGraph "graph_node_3" "Outer")],
    nodeCounter := 4 }

/-- An input whose top level matches no known format at all. -/
def unknownFile : FileData :=
  { format := none, graph := none, graphs := none, version := none,
    title := none, story := none }

/-- The node record `addNode` builds for a fresh graph-input node with
counter value `c` at an already snapped position. -/
def giNode (c : Nat) (pos : Int × Int) : Node :=
  { id := "node_" ++ natToStr c, x := snap pos.1, y := snap pos.2,
    width := NODE_MIN_WIDTH, height := NODE_MIN_HEIGHT,
    color := "cyan", type := "graph-input", text := "", title := "Input",
    inputs := [], outputs := [Pin.mk "Value" "#44ffff"], subgraphId := none }

/-- The same node after its title is edited to "Score". -/
def giScoreNode (c : Nat) (pos : Int × Int) : Node :=
  { giNode c pos with title := "Score" }

/-- The state `addNode` builds for a graph-input node just before it runs
the parent-interface sync: counter advanced, node appended to the current
graph. -/
def giAddedState (s : EditorState) (gid : String) (pos : Int × Int) : EditorState :=
  let graphs' := JMap.modifyVal s.graphs gid
    (fun g => { g with nodes := g.nodes ++ [giNode s.nodeCounter pos] })
  { s with nodeCounter := s.nodeCounter + 1, graphs := graphs' }

/-- Endpoint descriptors used by the connection-invariant witness. -/
def c5Start : PointRef := { nodeId := "n1", type := "output", index := some 0 }

def c5End : PointRef := { nodeId := "n2", type := "input", index := some 0 }

-- =====================================================================
-- Theorems
-- =====================================================================

/-- C9: on a graph with connections A to B and B to C plus an isolated D,
`layoutGraph` puts A and D in layer 0 (x = 0) stacked in node-array order,
B in layer 1 and C in layer 2, resets pan to the fixed (50, 50) offset and
zoom to 1, and is idempotent, so re-running it on the unchanged graph
reproduces every coordinate. -/
theorem C9_layout_determinism :
    (layoutGraph c9Graph).nodes.map (fun n => (n.id, n.x, n.y)) =
      [("A", 0, 0), ("B", 350, 0), ("C", 700, 0), ("D", 0, 200)] ∧
    (layoutGraph c9Graph).pan = ⟨50, 50⟩ ∧
    (layoutGraph c9Graph).zoom = 1 ∧
    layoutGraph (layoutGraph c9Graph) = layoutGraph c9Graph := by
  refine ⟨by decide, by decide, by decide, by decide⟩

/-- C3: deleting the selected default node n1 (owner of g1, whose node n2
owns g2) removes only the directly owned subgraph g1: the descendant graph
g2 stays in the store although it is no longer reachable from the root
through `subgraphId` references, contradicting the cascade the claim
states. -/
theorem C3_orphan_subgraph :
    JMap.get? (deleteSelected c3State).graphs "g1" = none ∧
    JMap.hasKey (deleteSelected c3State).graphs "g2" = true ∧
    (reachableGraphIds (deleteSelected c3State).graphs).contains "g2" = false := by
  refine ⟨by decide, by decide, by decide⟩

/-- C4: pasting a copied default node A (owner of gA, whose node B owns gB)
clones only the top-level subgraph gA; the clone's inner node still
references gB, so after the paste two stored nodes reference the graph gB,
contradicting the uniqueness invariant and the claimed fresh ids at every
nesting depth. -/
theorem C4_shared_subgraph :
    countRefs (pasteNodes (copySelected c4State)).graphs "gB" = 2 ∧
    JMap.hasKey (pasteNodes (copySelected c4State)).graphs "graph_node_3" = true := by
  refine ⟨by decide, by decide⟩

/-- C8 (counterexample): the readable export writes the literal format tag
"node-graph-v4-logic-only", not the "node-graph-v2-readable" the claim
states. -/
theorem C8_counterexample :
    (saveSimpleData c1State).format = "node-graph-v4-logic-only" ∧
    (saveSimpleData c1State).format ≠ "node-graph-v2-readable" := by
  refine ⟨rfl, by decide⟩

/-- C8 (amended): every file produced by the human-readable export has
exactly the top-level keys format, title and graph (the fields of
`ReadableFile`, mirroring the object literal of `saveSimpleGraph`), and the
format key holds the literal string "node-graph-v4-logic-only". -/
theorem C8_readable_format : ∀ s : EditorState,
    (saveSimpleData s).format = "node-graph-v4-logic-only" := by
  intro s
  rfl

/-- C7 (counterexample): a file whose top level has `story` and `title` (the
legacy simple format) and is neither readable nor full-fidelity is not
imported: the load rejects it as unsupported and leaves the store exactly as
it was. -/
theorem C7_counterexample :
    loadGraph c1State (.parsed c7LegacyFile) =
      (c1State, some "Error loading graph: Invalid or unsupported file format.") := by
  decide

/-- C7 (amended): format detection knows only the readable and the
full-fidelity shapes; a file whose top level has `story` and `title` fields
but neither detected shape is rejected as unrecognized with a user-visible
error, the store left unchanged — no legacy import path exists in the
code. -/
theorem C7_legacy_rejected : ∀ (s : EditorState) (d : FileData),
    d.story.isSome → d.title.isSome →
    detectReadable d = false → detectFull d = false →
    loadGraph s (.parsed d) =
      (s, some "Error loading graph: Invalid or unsupported file format.") := by
  intro s d _ _ h1 h2
  simp [loadGraph, h1, h2]

theorem C7_witness :
    loadGraph c3State (.parsed c7LegacyFile) =
      (c3State, some "Error loading graph: Invalid or unsupported file format.") :=
  C7_legacy_rejected c3State c7LegacyFile (by decide) (by decide) (by decide) (by decide)

/-- C2 (counterexample): a readable-detected file whose graph object lacks
the `nodes` array makes the conversion throw after `loadReadableGraph` has
already reset the store; the error is surfaced, but the store ends as the
freshly reset initial state, not the pre-load store, refuting the claim that
every conversion error leaves the store exactly as it was. -/
theorem C2_counterexample :
    loadGraph c2State (.parsed c2BadFile) =
      (initialState,
       some "Error loading graph: Cannot read properties of undefined (reading 'forEach')") ∧
    initialState ≠ c2State := by
  constructor
  · rw [loadGraph]
    rw [show detectReadable c2BadFile = true from by decide]
    simp only [c2BadFile, loadReadableGraph, convGraph]
    decide
  · decide

/-- C2 (amended): an unparseable file, a falsy parse result, and an
unrecognized top-level shape are each reported to the user and leave the
in-memory store untouched (these paths throw before any mutation); an error
thrown during conversion of a detected format is also surfaced, but then the
store has already been reset and partially rebuilt rather than left as it
was. -/
theorem C2_failed_load_store : 
    (∀ (s : EditorState) (msg : String),
      loadGraph s (.parseError msg) = (s, some ("Error loading graph: " ++ msg))) ∧
    (∀ s : EditorState,
      loadGraph s .parsedFalsy = (s, some "Error loading graph: File is empty or invalid.")) ∧
    (∀ (s : EditorState) (d : FileData),
      detectReadable d = false → detectFull d = false →
      loadGraph s (.parsed d) =
        (s, some "Error loading graph: Invalid or unsupported file format.")) := by
  refine ⟨fun s msg => rfl, fun s => rfl, fun s d h1 h2 => ?_⟩
  simp [loadGraph, h1, h2]

theorem C2_witness :
    loadGraph c1State (.parsed unknownFile) =
      (c1State, some "Error loading graph: Invalid or unsupported file format.") :=
  C2_failed_load_store.2.2 c1State unknownFile (by decide) (by decide)

-- ===== Decimal rendering and parsing round-trip (for claim C1) =====

theorem digitsLEAux_lt : ∀ fuel n, ∀ d ∈ digitsLEAux fuel n, d < 10 := by
  intro fuel
  induction fuel with
  | zero =>
    intro n d hd
    cases n <;> simp [digitsLEAux] at hd
  | succ fuel ih =>
    intro n d hd
    cases n with
    | zero => simp [digitsLEAux] at hd
    | succ m =>
      simp only [digitsLEAux, List.mem_cons] at hd
      rcases hd with h | h
      · omega
      · exact ih _ _ h

theorem digitsLEAux_lt' : ∀ fuel n d, d ∈ digitsLEAux fuel n → d < 10 := by
  intro fuel n d hd
  exact digitsLEAux_lt fuel n d hd

theorem ofDigitsLE_digitsLEAux : ∀ fuel n, n ≤ fuel → ofDigitsLE (digitsLEAux fuel n) = n := by
  intro fuel
  induction fuel with
  | zero =>
    intro n hn
    interval_cases n
    rfl
  | succ fuel ih =>
    intro n hn
    cases n with
    | zero => rfl
    | succ m =>
      have hdiv : (m + 1) / 10 ≤ fuel := by
        have hlt : (m + 1) / 10 < m + 1 := Nat.div_lt_self (by omega) (by omega)
        omega
      simp only [digitsLEAux, ofDigitsLE, ih _ hdiv]
      exact Nat.mod_add_div (m + 1) 10

theorem digitChar_isDigit {d : Nat} (h : d < 10) : isDigitChar (digitChar d) = true := by
  interval_cases d <;> decide

theorem digitVal_digitChar {d : Nat} (h : d < 10) : digitVal (digitChar d) = d := by
  interval_cases d <;> decide

theorem digitChar_ne_underscore {d : Nat} (h : d < 10) : digitChar d ≠ '_' := by
  interval_cases d <;> decide

theorem digit_not_space {c : Char} (h : isDigitChar c = true) : isJsSpace c = false := by
  by_contra hc
  have hc' : isJsSpace c = true := by revert hc; cases isJsSpace c <;> simp
  simp only [isJsSpace, Bool.or_eq_true, decide_eq_true_eq] at hc'
  rcases hc' with ((h1 | h1) | h1) | h1 <;> subst h1 <;> exact absurd h (by decide)

theorem digit_ne_minus {c : Char} (h : isDigitChar c = true) : c ≠ '-' := by
  intro he
  subst he
  simp [isDigitChar] at h

theorem digit_ne_plus {c : Char} (h : isDigitChar c = true) : c ≠ '+' := by
  intro he
  subst he
  simp [isDigitChar] at h

theorem parseDigitsAux_map : ∀ (ds : List Nat) (acc : Nat), (∀ d ∈ ds, d < 10) →
    parseDigitsAux (ds.map digitChar) acc = ds.foldl (fun a d => a * 10 + d) acc := by
  intro ds
  induction ds with
  | nil => intro acc _; rfl
  | cons d ds ih =>
    intro acc hlt
    have hd : d < 10 := hlt d (List.mem_cons_self d ds)
    simp only [List.map_cons, parseDigitsAux, digitChar_isDigit hd, if_pos,
      digitVal_digitChar hd, List.foldl_cons]
    exact ih _ (fun x hx => hlt x (List.mem_cons_of_mem d hx))

theorem foldl_reverse_ofDigitsLE : ∀ (ds : List Nat) (acc : Nat),
    ds.reverse.foldl (fun a d => a * 10 + d) acc = acc * 10 ^ ds.length + ofDigitsLE ds := by
  intro ds
  induction ds with
  | nil => intro acc; simp [ofDigitsLE]
  | cons d ds ih =>
    intro acc
    simp only [List.reverse_cons, List.foldl_append, ih, List.foldl_cons, List.foldl_nil,
      ofDigitsLE, List.length_cons]
    ring

theorem natDigitsLE_ne_nil {n : Nat} (h : 1 ≤ n) : natDigitsLE n ≠ [] := by
  cases n with
  | zero => omega
  | succ m => simp [natDigitsLE, digitsLEAux]

theorem natToStr_toList {n : Nat} (h : 1 ≤ n) :
    (natToStr n).toList = (natDigitsLE n).reverse.map digitChar := by
  unfold natToStr
  rw [if_neg (by omega)]
  rfl

theorem strToListAppend (a b : String) : (a ++ b).toList = a.toList ++ b.toList := by
  cases a
  cases b
  rfl

theorem strMkToList (s : String) : String.mk s.toList = s := by
  cases s
  rfl

theorem natToStr_all_digits {n : Nat} (h : 1 ≤ n) :
    ∀ c ∈ (natToStr n).toList, isDigitChar c = true := by
  intro c hc
  rw [natToStr_toList h] at hc
  rcases List.mem_map.mp hc with ⟨d, hd, rfl⟩
  exact digitChar_isDigit (digitsLEAux_lt' _ _ _ (List.mem_reverse.mp hd))

theorem natToStr_no_underscore (n : Nat) : '_' ∉ (natToStr n).toList := by
  by_cases h : n = 0
  · subst h; decide
  · intro hmem
    have h1n : 1 ≤ n := by omega
    have := natToStr_all_digits h1n _ hmem
    simp [isDigitChar] at this

theorem jsParseInt_natToStr {n : Nat} (h : 1 ≤ n) :
    jsParseInt (natToStr n) = some (n : Int) := by
  have hlist := natToStr_toList h
  cases hBE : (natDigitsLE n).reverse.map digitChar with
  | nil =>
    exfalso
    rcases List.map_eq_nil_iff.mp hBE |> List.reverse_eq_nil_iff.mp with h0
    exact natDigitsLE_ne_nil h h0
  | cons c rest =>
    have hcmem : c ∈ (natToStr n).toList := by
      rw [hlist, hBE]; exact List.mem_cons_self c rest
    have hc : isDigitChar c = true := natToStr_all_digits h _ hcmem
    have hlt10 : ∀ d ∈ (natDigitsLE n).reverse, d < 10 :=
      fun d hd => digitsLEAux_lt' n n d (List.mem_reverse.mp hd)
    have hval : parseDigitsAux ((natDigitsLE n).reverse.map digitChar) 0 = n := by
      rw [parseDigitsAux_map _ _ hlt10, foldl_reverse_ofDigitsLE]
      simpa using ofDigitsLE_digitsLEAux n n (le_refl n)
    unfold jsParseInt
    rw [hlist, hBE]
    simp only [List.dropWhile_cons, digit_not_space hc, Bool.false_eq_true, if_false]
    rw [if_neg (digit_ne_minus hc), if_neg (digit_ne_plus hc)]
    simp only [parsePrefixDigits, hc, if_true]
    rw [← hBE, hval]
    simp

theorem splitOnChar_not_mem (sep : Char) : ∀ l : List Char, sep ∉ l → splitOnChar sep l = [l] := by
  intro l
  induction l with
  | nil => intro _; rfl
  | cons c cs ih =>
    intro hmem
    have hc : ¬ c = sep := fun he => hmem (he ▸ List.mem_cons_self c cs)
    have hcs : sep ∉ cs := fun hm => hmem (List.mem_cons_of_mem c hm)
    simp only [splitOnChar, if_neg hc, ih hcs]

theorem splitOnChar_append (sep : Char) :
    ∀ pre suf : List Char, sep ∉ pre →
      splitOnChar sep (pre ++ sep :: suf) = pre :: splitOnChar sep suf := by
  intro pre
  induction pre with
  | nil =>
    intro suf _
    simp [splitOnChar]
  | cons a pre ih =>
    intro suf hmem
    have ha : ¬ a = sep := fun he => hmem (he ▸ List.mem_cons_self a pre)
    have hp : sep ∉ pre := fun hm => hmem (List.mem_cons_of_mem a hm)
    rw [List.cons_append]
    simp only [splitOnChar, if_neg ha]
    rw [ih suf hp]

theorem nodeIdSuffix_nodeId {n : Nat} (h : 1 ≤ n) :
    nodeIdSuffix ("node_" ++ natToStr n) = some (n : Int) := by
  have h1 : ("node_" ++ natToStr n).toList = ['n','o','d','e'] ++ '_' :: (natToStr n).toList := by
    rw [strToListAppend]
    rfl
  unfold nodeIdSuffix jsSplit
  rw [h1, splitOnChar_append _ _ _ (by decide),
      splitOnChar_not_mem _ _ (natToStr_no_underscore n)]
  simp only [List.map_cons, List.map_nil, List.get?]
  rw [strMkToList]
  exact jsParseInt_natToStr h

theorem maxIdStep_ge (a : Int) (node : Node) : a ≤ maxIdStep a node := by
  unfold maxIdStep
  cases nodeIdSuffix node.id with
  | none => exact le_refl a
  | some v =>
    by_cases hv : v > a
    · simp [hv]; omega
    · simp [hv]

theorem foldl_maxIdStep_ge : ∀ (l : List Node) (a : Int), a ≤ l.foldl maxIdStep a := by
  intro l
  induction l with
  | nil => intro a; exact le_refl a
  | cons node t ih =>
    intro a
    calc a ≤ maxIdStep a node := maxIdStep_ge a node
    _ ≤ (node :: t).foldl maxIdStep a := by simpa using ih (maxIdStep a node)

theorem foldl_maxIdStep_mem {v : Int} :
    ∀ (l : List Node) (a : Int) (node : Node), node ∈ l →
      nodeIdSuffix node.id = some v → v ≤ l.foldl maxIdStep a := by
  intro l
  induction l with
  | nil => intro a node hmem; exact absurd hmem (List.not_mem_nil node)
  | cons hd t ih =>
    intro a node hmem hsuf
    rcases List.mem_cons.mp hmem with h | h
    · subst h
      have h1 : v ≤ maxIdStep a node := by
        unfold maxIdStep
        rw [hsuf]
        by_cases hv : v > a
        · simp [hv]
        · simp [hv]; omega
      calc v ≤ maxIdStep a node := h1
      _ ≤ (node :: t).foldl maxIdStep a := by simpa using foldl_maxIdStep_ge t (maxIdStep a node)
    · simpa using ih (maxIdStep a hd) node h hsuf

theorem maxLoadedId_nonneg (gs : JMap String Graph) : 0 ≤ maxLoadedId gs :=
  foldl_maxIdStep_ge _ 0

/-- C1: importing a freshly exported full-fidelity file succeeds with no
error, restores the exact graph store (every graph, node field and
connection identical, so in particular isomorphic), recomputes the
identifier counter as the maximal numeric node-id suffix plus one, and no id
the counter can subsequently produce collides with any loaded node id. -/
theorem C1_full_roundtrip (s s₀ : EditorState) :
    (loadGraph s₀ (.parsed (fileOfFull (saveData s)))).2 = none ∧
    (loadGraph s₀ (.parsed (fileOfFull (saveData s)))).1.graphs = s.graphs ∧
    (loadGraph s₀ (.parsed (fileOfFull (saveData s)))).1.nodeCounter =
      (maxLoadedId s.graphs + 1).toNat ∧
    (∀ c : Nat,
      (loadGraph s₀ (.parsed (fileOfFull (saveData s)))).1.nodeCounter ≤ c →
      ∀ g ∈ JMap.values (loadGraph s₀ (.parsed (fileOfFull (saveData s)))).1.graphs,
        ∀ n ∈ g.nodes, n.id ≠ "node_" ++ natToStr c) := by
  have hload : loadGraph s₀ (.parsed (fileOfFull (saveData s))) =
      (loadFullGraph s.graphs, none) := by
    have h1 : detectReadable (fileOfFull (saveData s)) = false := rfl
    have h2 : detectFull (fileOfFull (saveData s)) = true := rfl
    simp only [loadGraph]
    rw [h1, h2]
    simp [fileOfFull, saveData]
  rw [hload]
  refine ⟨rfl, rfl, rfl, ?_⟩
  intro c hc g hg n hn hid
  have hmax0 : 0 ≤ maxLoadedId s.graphs := maxLoadedId_nonneg s.graphs
  have hcnt : (loadFullGraph s.graphs, (none : Option String)).1.nodeCounter =
      (maxLoadedId s.graphs + 1).toNat := rfl
  rw [hcnt] at hc
  have hc1 : 1 ≤ c := by omega
  have hsuf : nodeIdSuffix n.id = some (c : Int) := by
    rw [hid]
    exact nodeIdSuffix_nodeId hc1
  have hmem : n ∈ (JMap.values s.graphs).flatMap (fun g => g.nodes) :=
    List.mem_flatMap.mpr ⟨g, hg, hn⟩
  have hle : (c : Int) ≤ maxLoadedId s.graphs :=
    foldl_maxIdStep_mem _ 0 n hmem hsuf
  omega

theorem C1_witness :
    (mkDefaultNode "node_3" "Outer" (some "graph_node_3")).id ≠ "node_" ++ natToStr 4 :=
  (C1_full_roundtrip c1State c3State).2.2.2 4 (by decide)
    ({ mkEmptyGraph "root" "Project" with
       nodes := [mkDefaultNode "node_3" "Outer" (some "graph_node_3")] })
    (by decide) (mkDefaultNode "node_3" "Outer" (some "graph_node_3")) (by decide)

-- ===== Connection invariant (claim C5) =====

theorem connKey_connOf (s e : PointRef) (cid : String) :
    connKey (connOf s e cid) =
      ((if s.type == "output" then s else e).nodeId,
       (if s.type == "output" then s else e).index,
       (if s.type == "input" then s else e).nodeId,
       (if s.type == "input" then s else e).index) := rfl

theorem connOf_not_self {s e : PointRef} (cid : String)
    (hne : s.nodeId ≠ e.nodeId) (hside : s.type = "input" ∨ s.type = "output") :
    (connOf s e cid).start.nodeId ≠ (connOf s e cid).endP.nodeId := by
  rcases hside with h | h
  · simp [connOf, h]
    exact fun hh => hne hh.symm
  · simp [connOf, h]
    exact hne

theorem connOf_isSome {s e : PointRef} (cid : String)
    (hsi : s.index.isSome = true) (hei : e.index.isSome = true) :
    (connOf s e cid).start.index.isSome = true ∧
    (connOf s e cid).endP.index.isSome = true := by
  unfold connOf
  by_cases h1 : (s.type == "output") = true <;> by_cases h2 : (s.type == "input") = true <;>
    simp [h1, h2, hsi, hei]

theorem dupExists_false_key {l : List Connection} {s e : PointRef} (cid : String)
    (h2 : dupExists l s e = false) (hall : AllNumIdx l) :
    ∀ x ∈ l, connKey x ≠ connKey (connOf s e cid) := by
  intro x hx hkey
  simp only [dupExists] at h2
  rw [List.any_eq_false] at h2
  apply h2 x hx
  rw [connKey, connKey_connOf] at hkey
  simp only [Prod.mk.injEq] at hkey
  obtain ⟨ha, hb, hc, hd⟩ := hkey
  obtain ⟨hsi, hei⟩ := hall x hx
  obtain ⟨a, hA⟩ := Option.isSome_iff_exists.mp hsi
  obtain ⟨b, hB⟩ := Option.isSome_iff_exists.mp hei
  simp only [ha, hc, ← hb, ← hd, hA, hB, jsEqNum, beq_self_eq_true, Bool.and_self]

/-- C5: every connection list reachable by runtime connection creation
satisfies the validity invariant — no connection joins a node to itself and
no two connections share the `(start.nodeId, start.index, end.nodeId,
end.index)` tuple — and an attempt that would connect a node to itself, join
two pins of the same polarity, or duplicate an existing connection is a
silent no-op leaving the graph unchanged. -/
theorem C5_connection_invariant :
    (∀ l, ReachableConns l → ConnOK l ∧ AllNumIdx l) ∧
    (∀ (g : Graph) (s e : PointRef) (cid : String),
      s.nodeId = e.nodeId ∨ s.type = e.type ∨ dupExists g.connections s e = true →
      finishConnection g s e cid = g) := by
  constructor
  · intro l hr
    induction hr with
    | nil =>
      refine ⟨⟨?_, List.Pairwise.nil⟩, ?_⟩
      · intro c hc; exact absurd hc (List.not_mem_nil c)
      · intro c hc; exact absurd hc (List.not_mem_nil c)
    | step l s e cid hr hs he ih =>
      obtain ⟨⟨ihself, ihpair⟩, ihnum⟩ := ih
      by_cases h1 : (s.nodeId == e.nodeId || s.type == e.type) = true
      · rw [finishConnsCore, if_pos h1]
        exact ⟨⟨ihself, ihpair⟩, ihnum⟩
      · by_cases h2 : dupExists l s e = true
        · rw [finishConnsCore, if_neg h1, if_pos h2]
          exact ⟨⟨ihself, ihpair⟩, ihnum⟩
        · rw [finishConnsCore, if_neg h1, if_neg h2]
          have hne : s.nodeId ≠ e.nodeId := by
            intro hh
            exact h1 (by simp [hh])
          have h2f : dupExists l s e = false := by
            revert h2; cases dupExists l s e <;> simp
          refine ⟨⟨?_, ?_⟩, ?_⟩
          · intro c hc
            rcases List.mem_append.mp hc with hcl | hcr
            · exact ihself c hcl
            · rw [List.mem_singleton.mp hcr]
              exact connOf_not_self cid hne hs.1
          · rw [List.pairwise_append]
            refine ⟨ihpair, List.pairwise_singleton _ _, ?_⟩
            intro a ha b hb
            rw [List.mem_singleton.mp hb]
            exact dupExists_false_key cid h2f ihnum a ha
          · intro c hc
            rcases List.mem_append.mp hc with hcl | hcr
            · exact ihnum c hcl
            · rw [List.mem_singleton.mp hcr]
              exact connOf_isSome cid hs.2 he.2
  · intro g s e cid h
    rcases h with h | h | h
    · have hb : (s.nodeId == e.nodeId || s.type == e.type) = true := by simp [h]
      unfold finishConnection finishConnsCore
      rw [if_pos hb]
    · have hb : (s.nodeId == e.nodeId || s.type == e.type) = true := by simp [h]
      unfold finishConnection finishConnsCore
      rw [if_pos hb]
    · by_cases h1 : (s.nodeId == e.nodeId || s.type == e.type) = true
      · unfold finishConnection finishConnsCore
        rw [if_pos h1]
      · unfold finishConnection finishConnsCore
        rw [if_neg h1, if_pos h]

theorem C5_witness :
    ConnOK (finishConnsCore [] c5Start c5End "conn_1") ∧
    finishConnection c9Graph c5Start c5Start "conn_2" = c9Graph :=
  ⟨(C5_connection_invariant.1 (finishConnsCore [] c5Start c5End "conn_1")
      (ReachableConns.step [] c5Start c5End "conn_1" ReachableConns.nil
        ⟨Or.inr rfl, rfl⟩ ⟨Or.inl rfl, rfl⟩)).1,
   C5_connection_invariant.2 c9Graph c5Start c5Start "conn_2" (Or.inl rfl)⟩

-- ===== Navigation-stack invariant (claim C10) =====

theorem JMap.get?_some_mem {α : Type} [DecidableEq α] {m : JMap String α} {k : String} {v : α}
    (h : JMap.get? m k = some v) : ∃ p ∈ m, p.1 = k ∧ p.2 = v := by
  induction m with
  | nil => simp [JMap.get?] at h
  | cons hd t ih =>
    by_cases hh : (hd.1 == k) = true
    · rw [JMap.get?, if_pos hh] at h
      exact ⟨hd, List.mem_cons_self hd t, by simpa using hh, by simpa using h⟩
    · rw [JMap.get?, if_neg hh] at h
      obtain ⟨p, hp, hk, hv⟩ := ih h
      exact ⟨p, List.mem_cons_of_mem hd hp, hk, hv⟩

theorem getLast?_some_mem {α : Type} {l : List α} {a : α} (h : l.getLast? = some a) :
    a ∈ l := by
  obtain ⟨hne, heq⟩ := List.mem_getLast?_eq_getLast (Option.mem_def.mpr h)
  rw [heq]
  exact List.getLast_mem hne

theorem take_head? {α : Type} (l : List α) {n : Nat} (hn : 1 ≤ n) :
    (l.take n).head? = l.head? := by
  cases l with
  | nil => rw [List.take_nil]
  | cons a t =>
    cases n with
    | zero => omega
    | succ m => simp [List.take]

theorem take_ne_nil {α : Type} {l : List α} {n : Nat} (hn : 1 ≤ n) (hl : l ≠ []) :
    l.take n ≠ [] := by
  cases l with
  | nil => exact absurd rfl hl
  | cons a t =>
    cases n with
    | zero => omega
    | succ m => simp [List.take]

theorem navOk_parts {s : EditorState} (h : navOk s = true) :
    s.navigationStack ≠ [] ∧ s.navigationStack.head? = some "root" := by
  unfold navOk at h
  rw [Bool.and_eq_true] at h
  refine ⟨?_, by simpa using h.2⟩
  simpa [List.isEmpty_iff] using h.1

theorem navOk_intro {s : EditorState} (h1 : s.navigationStack ≠ [])
    (h2 : s.navigationStack.head? = some "root") : navOk s = true := by
  unfold navOk
  rw [Bool.and_eq_true]
  exact ⟨by simpa [List.isEmpty_iff] using h1, by simpa using h2⟩

theorem storeClosedNav_parts {s : EditorState} (h : storeClosedNav s = true) :
    (JMap.get? s.graphs "root").isSome = true ∧
    (∀ gid ∈ s.navigationStack, (JMap.get? s.graphs gid).isSome = true) ∧
    (∀ p ∈ s.graphs, ∀ n ∈ p.2.nodes, ∀ sg, n.subgraphId = some sg →
      (JMap.get? s.graphs sg).isSome = true) := by
  unfold storeClosedNav at h
  rw [Bool.and_eq_true, Bool.and_eq_true] at h
  obtain ⟨⟨h1, h2⟩, h3⟩ := h
  refine ⟨h1, fun gid hg => List.all_eq_true.mp h2 gid hg, ?_⟩
  intro p hp n hn sg hsg
  have := List.all_eq_true.mp (List.all_eq_true.mp h3 p hp) n hn
  rw [hsg] at this
  exact this

theorem storeClosedNav_intro {s : EditorState}
    (h1 : (JMap.get? s.graphs "root").isSome = true)
    (h2 : ∀ gid ∈ s.navigationStack, (JMap.get? s.graphs gid).isSome = true)
    (h3 : ∀ p ∈ s.graphs, ∀ n ∈ p.2.nodes, ∀ sg, n.subgraphId = some sg →
      (JMap.get? s.graphs sg).isSome = true) : storeClosedNav s = true := by
  unfold storeClosedNav
  rw [Bool.and_eq_true, Bool.and_eq_true]
  refine ⟨⟨h1, List.all_eq_true.mpr h2⟩, ?_⟩
  refine List.all_eq_true.mpr (fun p hp => List.all_eq_true.mpr (fun n hn => ?_))
  cases hsg : n.subgraphId with
  | none => rfl
  | some sg => exact h3 p hp n hn sg hsg

theorem currentGraph_isSome {s : EditorState}
    (hclosed : storeClosedNav s = true) (hnav : navOk s = true) :
    (currentGraph s).isSome = true := by
  obtain ⟨hne, _⟩ := navOk_parts hnav
  obtain ⟨_, hstack, _⟩ := storeClosedNav_parts hclosed
  unfold currentGraph
  cases hlast : s.navigationStack.getLast? with
  | none => exact absurd (List.getLast?_eq_none_iff.mp hlast) hne
  | some gid => exact hstack gid (getLast?_some_mem hlast)

theorem applyNav_preserve (op : NavOp) {s : EditorState}
    (hclosed : storeClosedNav s = true) (hnav : navOk s = true)
    (hlevel : ∀ level, op = NavOp.navTo level → 0 ≤ level) :
    storeClosedNav (applyNav s op) = true ∧ navOk (applyNav s op) = true := by
  obtain ⟨hne, hhead⟩ := navOk_parts hnav
  obtain ⟨hroot, hstack, hsub⟩ := storeClosedNav_parts hclosed
  cases op with
  | load =>
    exact ⟨(by decide : storeClosedNav initialState = true),
           (by decide : navOk initialState = true)⟩
  | navTo level =>
    have hlv : 0 ≤ level := hlevel level rfl
    simp only [applyNav]
    unfold navigateToLevel
    by_cases hguard : level ≥ (s.navigationStack.length : Int) - 1
    · rw [if_pos hguard]
      exact ⟨hclosed, hnav⟩
    · rw [if_neg hguard]
      have hslice : jsSliceTo s.navigationStack (level + 1) =
          s.navigationStack.take (level + 1).toNat := by
        unfold jsSliceTo
        rw [if_neg (by omega)]
      have htn : 1 ≤ (level + 1).toNat := by omega
      constructor
      · apply storeClosedNav_intro
        · exact hroot
        · intro gid hg
          simp only [hslice] at hg
          exact hstack gid (List.mem_of_mem_take hg)
        · exact hsub
      · apply navOk_intro
        · show jsSliceTo s.navigationStack (level + 1) ≠ []
          rw [hslice]
          exact take_ne_nil htn hne
        · show (jsSliceTo s.navigationStack (level + 1)).head? = some "root"
          rw [hslice, take_head? _ htn]
          exact hhead
  | enter nid =>
    simp only [applyNav]
    unfold enterNode
    cases hfind : findNode s nid with
    | none => exact ⟨hclosed, hnav⟩
    | some node =>
      dsimp only
      cases hsg : node.subgraphId with
      | none => exact ⟨hclosed, hnav⟩
      | some sg =>
        dsimp only
        by_cases hemp : sg ≠ ""
        · rw [if_pos hemp]
          have hsgex : (JMap.get? s.graphs sg).isSome = true := by
            unfold findNode at hfind
            cases hcur : currentGraph s with
            | none => rw [hcur] at hfind; simp at hfind
            | some g =>
              rw [hcur] at hfind
              have hnodemem := List.mem_of_find?_eq_some hfind
              unfold currentGraph at hcur
              cases hlast : s.navigationStack.getLast? with
              | none => rw [hlast] at hcur; simp at hcur
              | some gid =>
                rw [hlast] at hcur
                obtain ⟨p, hpmem, _, hpv⟩ := JMap.get?_some_mem hcur
                exact hsub p hpmem node (hpv ▸ hnodemem) sg hsg
          constructor
          · apply storeClosedNav_intro
            · exact hroot
            · intro gid hg
              rcases List.mem_append.mp hg with hg | hg
              · exact hstack gid hg
              · rw [List.mem_singleton.mp hg]
                exact hsgex
            · exact hsub
          · apply navOk_intro
            · simp
            · show (s.navigationStack ++ [sg]).head? = some "root"
              rw [List.head?_append_of_ne_nil _ hne]
              exact hhead
        · rw [if_neg hemp]
          exact ⟨hclosed, hnav⟩

/-- C10: along any sequence of navigation operations in which
`navigateToLevel` is only invoked with a level of at least 0 (as the
breadcrumb UI does), starting from a state whose store is closed under
`subgraphId` references, the navigation stack stays non-empty with "root"
first — `enterNode` only appends an existing subgraph id,
`navigateToLevel` either is a no-op or truncates to at least the root, and a
load resets the stack to exactly the root — so the current-graph accessor is
always defined. -/
theorem C10_navigation_invariant :
    ∀ (ops : List NavOp) (s : EditorState),
      storeClosedNav s = true → navOk s = true →
      (∀ level, NavOp.navTo level ∈ ops → 0 ≤ level) →
      navOk (ops.foldl applyNav s) = true ∧
      (currentGraph (ops.foldl applyNav s)).isSome = true := by
  intro ops
  induction ops with
  | nil =>
    intro s h1 h2 _
    exact ⟨h2, currentGraph_isSome h1 h2⟩
  | cons op ops ih =>
    intro s h1 h2 hlv
    have hstep := applyNav_preserve op h1 h2
      (fun lv hl => hlv lv (hl ▸ List.mem_cons_self op ops))
    simpa using ih (applyNav s op) hstep.1 hstep.2
      (fun lv hm => hlv lv (List.mem_cons_of_mem op hm))

theorem C10_witness :
    navOk ([NavOp.enter "node_1", NavOp.navTo 0, NavOp.load].foldl applyNav c6State) = true ∧
    (currentGraph ([NavOp.enter "node_1", NavOp.navTo 0, NavOp.load].foldl applyNav
      c6State)).isSome = true :=
  C10_navigation_invariant [NavOp.enter "node_1", NavOp.navTo 0, NavOp.load] c6State
    (by decide) (by decide)
    (fun level hm => by
      simp only [List.mem_cons, List.not_mem_nil, or_false] at hm
      rcases hm with h | h | h
      · cases h
      · cases h
        omega
      · cases h)

-- ===== Interface sync (claim C6) =====

theorem JMap.get?_set_self {α : Type} (m : JMap String α) (k : String) (v : α) :
    JMap.get? (JMap.set m k v) k = some v := by
  unfold JMap.set
  by_cases h : m.any (fun p => p.1 == k) = true
  · rw [if_pos h]
    induction m with
    | nil => simp at h
    | cons hd t ih =>
      simp only [List.map_cons]
      by_cases hh : (hd.1 == k) = true
      · rw [if_pos hh, JMap.get?, if_pos (by simp)]
      · rw [if_neg hh, JMap.get?, if_neg hh]
        exact ih (by simpa [List.any_cons, hh] using h)
  · rw [if_neg h]
    induction m with
    | nil => simp [JMap.get?]
    | cons hd t ih =>
      have hh : ¬ (hd.1 == k) = true := by
        intro hc
        exact h (by simp [List.any_cons, hc])
      rw [List.cons_append, JMap.get?, if_neg hh]
      exact ih (by
        intro hc
        exact h (by simp [List.any_cons]; right; simpa using hc))

theorem JMap.get?_set_ne {α : Type} (m : JMap String α) {k' k : String} (v : α)
    (h : ¬ k' = k) : JMap.get? (JMap.set m k' v) k = JMap.get? m k := by
  unfold JMap.set
  by_cases ha : m.any (fun p => p.1 == k') = true
  · rw [if_pos ha]
    clear ha
    induction m with
    | nil => rfl
    | cons hd t ih =>
      simp only [List.map_cons]
      by_cases hh : (hd.1 == k') = true
      · have hd_ne : ¬ (hd.1 == k) = true := by
          simp only [beq_iff_eq] at hh ⊢
          rw [hh]; exact h
        rw [if_pos hh, JMap.get?, JMap.get?, if_neg (by simpa using h), if_neg hd_ne]
        exact ih
      · rw [if_neg hh, JMap.get?, JMap.get?]
        by_cases hdk : (hd.1 == k) = true
        · rw [if_pos hdk, if_pos hdk]
        · rw [if_neg hdk, if_neg hdk]
          exact ih
  · rw [if_neg ha]
    induction m with
    | nil =>
      simp only [List.nil_append, JMap.get?]
      rw [if_neg (by simpa using h)]
    | cons hd t ih =>
      have ht : ¬ t.any (fun p => p.1 == k') = true := by
        intro hc
        exact ha (by simp [List.any_cons]; right; simpa using hc)
      rw [List.cons_append, JMap.get?, JMap.get?]
      by_cases hdk : (hd.1 == k) = true
      · rw [if_pos hdk, if_pos hdk]
      · rw [if_neg hdk, if_neg hdk]
        exact ih ht

theorem JMap.get?_modifyVal_self {α : Type} {m : JMap String α} {k : String} {v : α}
    (f : α → α) (h : JMap.get? m k = some v) :
    JMap.get? (JMap.modifyVal m k f) k = some (f v) := by
  induction m with
  | nil => simp [JMap.get?] at h
  | cons hd t ih =>
    unfold JMap.modifyVal
    simp only [List.map_cons]
    by_cases hh : (hd.1 == k) = true
    · rw [JMap.get?, if_pos hh] at h
      rw [Option.some.injEq] at h
      rw [if_pos hh, JMap.get?, if_pos (by simp), h]
    · rw [JMap.get?, if_neg hh] at h
      rw [if_neg hh, JMap.get?, if_neg hh]
      exact ih h

theorem JMap.get?_modifyVal_ne {α : Type} (m : JMap String α) {k' k : String}
    (f : α → α) (h : ¬ k' = k) :
    JMap.get? (JMap.modifyVal m k' f) k = JMap.get? m k := by
  induction m with
  | nil => rfl
  | cons hd t ih =>
    unfold JMap.modifyVal
    simp only [List.map_cons]
    by_cases hh : (hd.1 == k') = true
    · have hd_ne : ¬ (hd.1 == k) = true := by
        simp only [beq_iff_eq] at hh ⊢
        rw [hh]; exact h
      rw [if_pos hh, JMap.get?, JMap.get?, if_neg (by simpa using h), if_neg hd_ne]
      exact ih
    · rw [if_neg hh, JMap.get?, JMap.get?]
      by_cases hdk : (hd.1 == k) = true
      · rw [if_pos hdk, if_pos hdk]
      · rw [if_neg hdk, if_neg hdk]
        exact ih

theorem find?_append_none {α : Type} {p : α → Bool} :
    ∀ l₁ : List α, (∀ x ∈ l₁, p x = false) → ∀ l₂, (l₁ ++ l₂).find? p = l₂.find? p := by
  intro l₁
  induction l₁ with
  | nil => intro _ l₂; rfl
  | cons a t ih =>
    intro h l₂
    rw [List.cons_append, List.find?_cons, h a (List.mem_cons_self a t)]
    exact ih (fun x hx => h x (List.mem_cons_of_mem a hx)) l₂

theorem replaceFirst_append_none {α : Type} {p : α → Bool} {f : α → α} :
    ∀ l₁ : List α, (∀ x ∈ l₁, p x = false) → ∀ l₂,
      replaceFirst p f (l₁ ++ l₂) = l₁ ++ replaceFirst p f l₂ := by
  intro l₁
  induction l₁ with
  | nil => intro _ l₂; rfl
  | cons a t ih =>
    intro h l₂
    rw [List.cons_append, replaceFirst, if_neg (by simp [h a (List.mem_cons_self a t)]),
        ih (fun x hx => h x (List.mem_cons_of_mem a hx)) l₂, List.cons_append]

theorem find?_replaceFirst {α : Type} {p : α → Bool} {f : α → α} :
    ∀ (l : List α) (a : α), l.find? p = some a → p (f a) = true →
      (replaceFirst p f l).find? p = some (f a) := by
  intro l
  induction l with
  | nil => intro a h _; simp at h
  | cons x t ih =>
    intro a h hpf
    by_cases hx : p x = true
    · rw [List.find?_cons, hx] at h
      have hxa : x = a := by simpa using h
      subst hxa
      rw [replaceFirst, if_pos hx, List.find?_cons, hpf]
    · have hx' : p x = false := by simpa using hx
      rw [List.find?_cons, hx'] at h
      rw [replaceFirst, if_neg (by simp [hx']), List.find?_cons, hx']
      exact ih a h hpf

theorem getLast?_append_pair {α : Type} (pre : List α) (a b : α) :
    (pre ++ [a, b]).getLast? = some b := by
  rw [show pre ++ [a, b] = (pre ++ [a]) ++ [b] by simp]
  exact List.getLast?_concat _

theorem get?_append_pair {α : Type} (pre : List α) (a b : α) :
    (pre ++ [a, b]).get? ((pre ++ [a, b]).length - 2) = some a := by
  have hlen : (pre ++ [a, b]).length = pre.length + 2 := by simp
  rw [hlen]
  have h2 : pre.length + 2 - 2 = pre.length := by omega
  rw [h2, List.get?_append_right (by omega)]
  simp

/-- What one `updateParentInterface` run does when the stack tail is
`[pid, gid]`, both graphs exist, and the parent holds an owning node. -/
theorem updateParentInterface_spec (s : EditorState) (pre : List String)
    (pid gid : String) (G PG : Graph) (P : Node)
    (hstack : s.navigationStack = pre ++ [pid, gid])
    (hG : JMap.get? s.graphs gid = some G)
    (hPG : JMap.get? s.graphs pid = some PG)
    (hfind : PG.nodes.find? (fun n => n.subgraphId == some gid) = some P) :
    updateParentInterface s = syncedState s pid gid G PG := by
  have hlast : s.navigationStack.getLast? = some gid := by
    rw [hstack]; exact getLast?_append_pair pre pid gid
  have hidx : s.navigationStack.get? (s.navigationStack.length - 2) = some pid := by
    rw [hstack]; exact get?_append_pair pre pid gid
  have hlen : ¬ s.navigationStack.length ≤ 1 := by
    rw [hstack]; simp
  unfold updateParentInterface syncedState
  rw [if_neg hlen, hlast, hidx]
  dsimp only
  rw [hPG]
  dsimp only
  rw [hfind, hG]
  rfl

theorem addNode_graphInput_spec (s : EditorState) (gid : String) (G : Graph)
    (pos : Int × Int)
    (hcur1 : currentGraphId s = some gid)
    (hcur2 : currentGraph s = some G) :
    addNode s "graph-input" pos = updateParentInterface (giAddedState s gid pos) := by
  unfold addNode
  rw [hcur1, hcur2]
  rfl

/-- C6 (counterexample): after adding a graph-input node inside subgraph G,
retitling it "Score" (its color is cyan from creation), with the sync
having run, the node owning G has NO output pin at all — the Score pin
appears among its INPUTS — so the claim that the owner gains an output pin
`{name: "Score", color: cyan}` is false. -/
theorem C6_counterexample :
    ((JMap.get? (updateNodeProp (addNode c6State "graph-input" (0, 0))
        "node_2" "title" "Score").graphs "root").map
      (fun g => g.nodes.map (fun n => (n.title, n.inputs, n.outputs)))) =
      some [("P", [Pin.mk "Score" "#44ffff"], [])] := by
  decide

/-- C6 (amended): adding a graph-input node inside subgraph G (created
cyan), retitling it "Score", and letting the parent-interface sync run
gives the node owning G exactly one INPUT pin `{name: "Score", color:
"#44ffff"}` for it, appended after the pins of the pre-existing graph-input
nodes, so pin order matches the order of the graph-input nodes in the
node sequence of G; the graph-output-derived output pins are untouched. -/
theorem C6_interface_sync (s : EditorState) (pre : List String) (pid gid : String)
    (G PG : Graph) (P : Node) (pos : Int × Int)
    (hstack : s.navigationStack = pre ++ [pid, gid])
    (hG : JMap.get? s.graphs gid = some G)
    (hPG : JMap.get? s.graphs pid = some PG)
    (hne : ¬ pid = gid)
    (hfind : PG.nodes.find? (fun n => n.subgraphId == some gid) = some P)
    (hfresh : ∀ n ∈ G.nodes, n.id ≠ "node_" ++ natToStr s.nodeCounter) :
    ∃ PG' P',
      JMap.get? (updateNodeProp (addNode s "graph-input" pos)
          ("node_" ++ natToStr s.nodeCounter) "title" "Score").graphs pid = some PG' ∧
      PG'.nodes.find? (fun n => n.subgraphId == some gid) = some P' ∧
      P'.inputs = pinsOfInputs G ++ [Pin.mk "Score" "#44ffff"] ∧
      P'.outputs = pinsOfOutputs G := by
  have hgidne : ¬ gid = pid := fun h => hne h.symm
  have hbeqfresh : ∀ x ∈ G.nodes, (x.id == ("node_" ++ natToStr s.nodeCounter)) = false :=
    fun x hx => beq_eq_false_iff_ne.mpr (hfresh x hx)
  have hcur1 : currentGraphId s = some gid := by
    unfold currentGraphId
    rw [hstack]
    exact getLast?_append_pair pre pid gid
  have hcur2 : currentGraph s = some G := by
    unfold currentGraph
    rw [hstack, getLast?_append_pair pre pid gid]
    exact hG
  rw [addNode_graphInput_spec s gid G pos hcur1 hcur2]
  have hstk₁ : (giAddedState s gid pos).navigationStack = pre ++ [pid, gid] := hstack
  have hG1 : JMap.get? (giAddedState s gid pos).graphs gid =
      some { G with nodes := G.nodes ++ [giNode s.nodeCounter pos] } :=
    JMap.get?_modifyVal_self
      (fun g : Graph => { g with nodes := g.nodes ++ [giNode s.nodeCounter pos] }) hG
  have hPG1 : JMap.get? (giAddedState s gid pos).graphs pid = some PG :=
    (JMap.get?_modifyVal_ne s.graphs
      (fun g : Graph => { g with nodes := g.nodes ++ [giNode s.nodeCounter pos] }) hgidne).trans hPG
  rw [updateParentInterface_spec (giAddedState s gid pos) pre pid gid _ PG P hstk₁ hG1 hPG1 hfind]
  have hstk₂ : (syncedState (giAddedState s gid pos) pid gid
      { G with nodes := G.nodes ++ [giNode s.nodeCounter pos] } PG).navigationStack =
      pre ++ [pid, gid] := hstack
  have hcurid₂ : currentGraphId (syncedState (giAddedState s gid pos) pid gid
      { G with nodes := G.nodes ++ [giNode s.nodeCounter pos] } PG) = some gid := by
    unfold currentGraphId
    rw [hstk₂]
    exact getLast?_append_pair pre pid gid
  have hG2get : JMap.get? (syncedState (giAddedState s gid pos) pid gid
      { G with nodes := G.nodes ++ [giNode s.nodeCounter pos] } PG).graphs gid =
      some { G with nodes := G.nodes ++ [giNode s.nodeCounter pos] } := by
    exact (JMap.get?_set_ne (giAddedState s gid pos).graphs
      (syncedParent gid { G with nodes := G.nodes ++ [giNode s.nodeCounter pos] } PG)
      hne).trans hG1
  have hfindN : findNode (syncedState (giAddedState s gid pos) pid gid
      { G with nodes := G.nodes ++ [giNode s.nodeCounter pos] } PG)
      ("node_" ++ natToStr s.nodeCounter) = some (giNode s.nodeCounter pos) := by
    unfold findNode currentGraph
    have hl : (syncedState (giAddedState s gid pos) pid gid
        { G with nodes := G.nodes ++ [giNode s.nodeCounter pos] } PG).navigationStack.getLast? =
        some gid := by
      rw [hstk₂]
      exact getLast?_append_pair pre pid gid
    rw [hl]
    dsimp only
    rw [hG2get]
    dsimp only
    rw [find?_append_none G.nodes hbeqfresh [giNode s.nodeCounter pos]]
    rw [List.find?_cons]
    rw [show ((giNode s.nodeCounter pos).id == ("node_" ++ natToStr s.nodeCounter)) = true from
          beq_self_eq_true _]
  have hstep2 : updateNodeProp (syncedState (giAddedState s gid pos) pid gid
      { G with nodes := G.nodes ++ [giNode s.nodeCounter pos] } PG)
      ("node_" ++ natToStr s.nodeCounter) "title" "Score" =
      updateParentInterface (titleEditedState (syncedState (giAddedState s gid pos) pid gid
        { G with nodes := G.nodes ++ [giNode s.nodeCounter pos] } PG) gid
        ("node_" ++ natToStr s.nodeCounter)) := by
    unfold updateNodeProp
    rw [hfindN]
    dsimp only
    unfold modifyCurrentGraph
    rw [hcurid₂]
    rfl
  rw [hstep2]
  have hstk₃ : (titleEditedState (syncedState (giAddedState s gid pos) pid gid
      { G with nodes := G.nodes ++ [giNode s.nodeCounter pos] } PG) gid
      ("node_" ++ natToStr s.nodeCounter)).navigationStack = pre ++ [pid, gid] := hstack
  have hrepl : replaceFirst (fun n => n.id == ("node_" ++ natToStr s.nodeCounter))
      (fun n => { n with title := "Score" }) (G.nodes ++ [giNode s.nodeCounter pos]) =
      G.nodes ++ [giScoreNode s.nodeCounter pos] := by
    rw [replaceFirst_append_none G.nodes hbeqfresh [giNode s.nodeCounter pos]]
    rw [replaceFirst,
        if_pos (show ((giNode s.nodeCounter pos).id == ("node_" ++ natToStr s.nodeCounter)) = true
          from beq_self_eq_true _)]
    rfl
  have hG3 : JMap.get? (titleEditedState (syncedState (giAddedState s gid pos) pid gid
      { G with nodes := G.nodes ++ [giNode s.nodeCounter pos] } PG) gid
      ("node_" ++ natToStr s.nodeCounter)).graphs gid =
      some { G with nodes := G.nodes ++ [giScoreNode s.nodeCounter pos] } := by
    have hbase := JMap.get?_modifyVal_self
      (titleEditFun ("node_" ++ natToStr s.nodeCounter)) hG2get
    refine Eq.trans hbase ?_
    rw [Option.some.injEq]
    unfold titleEditFun
    dsimp only
    rw [hrepl]
  have hPG3 : JMap.get? (titleEditedState (syncedState (giAddedState s gid pos) pid gid
      { G with nodes := G.nodes ++ [giNode s.nodeCounter pos] } PG) gid
      ("node_" ++ natToStr s.nodeCounter)).graphs pid =
      some (syncedParent gid { G with nodes := G.nodes ++ [giNode s.nodeCounter pos] } PG) := by
    have hbase := JMap.get?_modifyVal_ne (syncedState (giAddedState s gid pos) pid gid
        { G with nodes := G.nodes ++ [giNode s.nodeCounter pos] } PG).graphs
      (titleEditFun ("node_" ++ natToStr s.nodeCounter)) hgidne
    refine Eq.trans hbase ?_
    exact JMap.get?_set_self (giAddedState s gid pos).graphs pid _
  have hpredP0 := List.find?_some hfind
  have hpredP : (P.subgraphId == some gid) = true := hpredP0
  have hfind₃ : (syncedParent gid { G with nodes := G.nodes ++ [giNode s.nodeCounter pos] }
      PG).nodes.find? (fun n => n.subgraphId == some gid) =
      some (pinsUpd { G with nodes := G.nodes ++ [giNode s.nodeCounter pos] } P) :=
    find?_replaceFirst PG.nodes P hfind hpredP
  rw [updateParentInterface_spec _ pre pid gid _ _ _ hstk₃ hG3 hPG3 hfind₃]
  refine ⟨syncedParent gid { G with nodes := G.nodes ++ [giScoreNode s.nodeCounter pos] }
      (syncedParent gid { G with nodes := G.nodes ++ [giNode s.nodeCounter pos] } PG),
    pinsUpd { G with nodes := G.nodes ++ [giScoreNode s.nodeCounter pos] }
      (pinsUpd { G with nodes := G.nodes ++ [giNode s.nodeCounter pos] } P), ?_, ?_, ?_, ?_⟩
  · exact JMap.get?_set_self (titleEditedState (syncedState (giAddedState s gid pos) pid gid
      { G with nodes := G.nodes ++ [giNode s.nodeCounter pos] } PG) gid
      ("node_" ++ natToStr s.nodeCounter)).graphs pid _
  · exact find?_replaceFirst _ _ hfind₃ hpredP
  · show pinsOfInputs { G with nodes := G.nodes ++ [giScoreNode s.nodeCounter pos] } =
        pinsOfInputs G ++ [Pin.mk "Score" "#44ffff"]
    unfold pinsOfInputs
    dsimp only
    rw [List.filter_append, List.map_append]
    congr 1
  · show pinsOfOutputs { G with nodes := G.nodes ++ [giScoreNode s.nodeCounter pos] } =
        pinsOfOutputs G
    unfold pinsOfOutputs
    dsimp only
    rw [List.filter_append]
    simp [giScoreNode, giNode]

theorem C6_witness :
    ∃ PG' P',
      JMap.get? (updateNodeProp (addNode c6State "graph-input" (0, 0))
          ("node_" ++ natToStr c6State.nodeCounter) "title" "Score").graphs "root" = some PG' ∧
      PG'.nodes.find? (fun n => n.subgraphId == some "G") = some P' ∧
      P'.inputs = pinsOfInputs (mkEmptyGraph "G" "P") ++ [Pin.mk "Score" "#44ffff"] ∧
      P'.outputs = pinsOfOutputs (mkEmptyGraph "G" "P") :=
  C6_interface_sync c6State [] "root" "G" (mkEmptyGraph "G" "P")
    ({ mkEmptyGraph "root" "Root" with nodes := [mkDefaultNode "node_1" "P" (some "G")] })
    (mkDefaultNode "node_1" "P" (some "G")) (0, 0)
    (by decide) (by decide) (by decide) (by decide) (by decide) (by decide)
